import Mathlib

set_option maxRecDepth 8192

/-!
Shallow embedding of the HAProxy configurator core
(`HaproxyConfigurator`, `validate`, `AddListener`, `Render`).

Go maps are modelled as association lists (`List (key × value)`); Go map
assignment is `alistInsert` (overwrite-in-place-or-append), Go map lookup is
`alistLookup`.  The unordered iteration of a Go map is represented by the
arbitrary order of the association list; `Render` sorts every key list before
iterating, exactly as the source does.  `uint16` ports are modelled as `Nat`
(the code performs no arithmetic on them).  The fatal `panic` in `AddListener`
and the nil-pointer dereference that `Render` would perform on a tcp listener
with no `"_"` backend are modelled as explicit failure values
(`AddListenerOutcome.panicked`, `Render` returning `none`).  `Render`'s
in-place slice sorting (`sort.Strings(listener.sslCertificates)`,
`sort.Slice(backend.Backends, ...)`) mutates the store through pointers, so
`Render` is modelled with explicit state passing: it returns the rendered
string together with the post-render store.
-/

/-- Association-list lookup, modelling Go map indexing `m[k]`. -/
def alistLookup {α β : Type} [DecidableEq α] (k : α) : List (α × β) → Option β
  | [] => none
  | (k₁, v) :: rest => if k₁ = k then some v else alistLookup k rest

/-- Association-list overwrite-or-append, modelling Go map assignment `m[k] = v`. -/
def alistInsert {α β : Type} [DecidableEq α] (k : α) (v : β) : List (α × β) → List (α × β)
  | [] => [(k, v)]
  | (k₁, v₁) :: rest => if k₁ = k then (k, v) :: rest else (k₁, v₁) :: alistInsert k v rest

/-- One physical backend endpoint (fields `Name`, `IP`, `Port uint16`). -/
structure HaproxyBackendServer where
  Name : String
  IP : String
  Port : Nat
deriving DecidableEq, Inhabited, Repr

/-- A routable pool of servers.  The server slice is the Go field `Backends`. -/
structure HaproxyBackend where
  Name : String
  BalanceMethod : String
  UseSSL : Bool
  VerifySSL : Bool
  Backends : List HaproxyBackendServer
deriving DecidableEq, Inhabited, Repr

/-- One listener per (ListenIP, ListenPort): Go struct `haproxyListener`. -/
structure haproxyListener where
  name : String
  mode : String
  sslCertificates : List String
  hostnameBackends : List (String × HaproxyBackend)
  useSSL : Bool
deriving DecidableEq, Inhabited, Repr

/-- Go struct `haproxyConfig`: `listenIPs map[string]map[uint16]*haproxyListener`. -/
structure haproxyConfig where
  listenIPs : List (String × List (Nat × haproxyListener))
deriving DecidableEq, Inhabited, Repr

/-- Go struct `HaproxyConfigurator` holding the desired configuration. -/
structure HaproxyConfigurator where
  desiredConfig : haproxyConfig
deriving DecidableEq, Inhabited, Repr

/-- Go method Initialize: sets up a new configurator with an empty listenIPs map. -/
def Initialize : HaproxyConfigurator := ⟨⟨[]⟩⟩

/-- Go struct `HaproxyListenerConfig`: a caller-facing listener request. -/
structure HaproxyListenerConfig where
  Name : String
  Backend : HaproxyBackend
  Hostname : String
  ListenIP : String
  ListenPort : Nat
  Mode : String
  SslCertificate : String
  validationErrors : List String
deriving DecidableEq, Inhabited, Repr

/-- Go method `addValidationError`: append a message to the request's error list. -/
def addValidationError (hlc : HaproxyListenerConfig) (message : String) : HaproxyListenerConfig :=
  { hlc with validationErrors := hlc.validationErrors ++ [message] }

/-- Lookup of the listener stored at (ListenIP, ListenPort), the double map
indexing `h.desiredConfig.listenIPs[ip][port]`. -/
def storeLookup (h : HaproxyConfigurator) (ip : String) (port : Nat) : Option haproxyListener :=
  match alistLookup ip h.desiredConfig.listenIPs with
  | none => none
  | some inner => alistLookup port inner

/-- The "Check mode" step of `validate` (source lines 40-44): the request and
the running validation flag after checking `Mode` against the two valid
values. -/
def modeCheck (hlc : HaproxyListenerConfig) : HaproxyListenerConfig × Bool :=
  if hlc.Mode ≠ "http" ∧ hlc.Mode ≠ "tcp" then
    (addValidationError hlc
      ("Invalid mode (" ++ hlc.Mode ++ ") specified - valid options \x27http\x27, \x27tcp\x27"),
      false)
  else (hlc, true)

/-- The "Validate Mode" step of `validate` (source lines 49-53): against the
listener already stored at the request's (ListenIP, ListenPort). -/
def modeMatchCheck (listener : haproxyListener) (hlc : HaproxyListenerConfig)
    (acc : HaproxyListenerConfig × Bool) : HaproxyListenerConfig × Bool :=
  if listener.mode ≠ hlc.Mode then
    (addValidationError acc.1 "Mode does not match on service", false)
  else acc

/-- The "Validate SSL" step of `validate` (source lines 55-59). -/
def sslMatchCheck (listener : haproxyListener) (hlc : HaproxyListenerConfig)
    (acc : HaproxyListenerConfig × Bool) : HaproxyListenerConfig × Bool :=
  if listener.useSSL ≠ (hlc.SslCertificate ≠ "") then
    (addValidationError acc.1 "SSL Certificate provided on a service that isn\x27t using SSL",
      false)
  else acc

/-- Go method `validate`: checks the mode string and, when a listener already
exists at (ListenIP, ListenPort), the mode match and the SSL-usage match, in
source order, accumulating error messages.  `validate` mutates the request
(its accumulated `validationErrors`), so it returns the updated request
together with the boolean result. -/
def validate (hlc : HaproxyListenerConfig) (h : HaproxyConfigurator) :
    HaproxyListenerConfig × Bool :=
  -- Check mode, then check against the other services' configurations
  match storeLookup h hlc.ListenIP hlc.ListenPort with
  | none => modeCheck hlc
  | some listener => sslMatchCheck listener hlc (modeMatchCheck listener hlc (modeCheck hlc))

/-- The three ways an `AddListener` call can end: the store mutated (`added`),
the request rejected with its accumulated validation errors and the store
untouched (`rejected`), or the fatal duplicate-tcp-listener `panic`
(`panicked`). -/
inductive AddListenerOutcome where
  | added (h : HaproxyConfigurator)
  | rejected (h : HaproxyConfigurator) (errors : List String)
  | panicked (message : String)
deriving DecidableEq, Inhabited, Repr

/-- The tail of a successful `AddListener` call (source lines 92-99): append a
supplied certificate to the listener's certificate slice, then store the
request's backend under the hostname key (`"_"` for tcp, the request's
`Hostname` otherwise), overwriting any previous entry. -/
def mergeRequestIntoListener (hlc : HaproxyListenerConfig) (listener : haproxyListener) :
    haproxyListener :=
  let listener :=
    if hlc.SslCertificate ≠ "" then
      { listener with sslCertificates := listener.sslCertificates ++ [hlc.SslCertificate] }
    else listener
  let hostname := if hlc.Mode = "tcp" then "_" else hlc.Hostname
  { listener with
      hostnameBackends := alistInsert hostname hlc.Backend listener.hostnameBackends }

/-- The listener-resolution step of a successful `AddListener` call (source
lines 75-90): the listener at the request's port is freshly created when the
port is free; when the port is taken, a tcp request is the fatal
duplicate-TCP-listener condition (the Go `panic`). -/
def findOrCreateListener (hlc : HaproxyListenerConfig) (existing : Option haproxyListener) :
    Except String haproxyListener :=
  match existing with
  | none =>
    .ok { name := hlc.Name
          mode := hlc.Mode
          sslCertificates := []
          hostnameBackends := []
          useSSL := hlc.SslCertificate ≠ "" }
  | some listener =>
    -- Don't allow duplicate listeners on TCP endpoints
    if hlc.Mode = "tcp" then
      .error "This could cause unpredictability in the service router"
    else .ok listener

/-- Go method `AddListener`.  On successful validation it ensures the inner map
for `ListenIP` exists, creates the listener when the port is free, panics when
the port is taken and the request is tcp, appends a supplied certificate to the
listener's certificate slice, and stores the backend under the hostname key
(`"_"` for tcp).  On validation failure the store is left unchanged and the
accumulated messages are reported. -/
def AddListener (h : HaproxyConfigurator) (hlc₀ : HaproxyListenerConfig) : AddListenerOutcome :=
  let v := validate hlc₀ h
  let hlc := v.1
  if v.2 then
    -- `listenIPs[ip]` is created empty when absent; either way `inner` is its value
    let inner := (alistLookup hlc.ListenIP h.desiredConfig.listenIPs).getD []
    match findOrCreateListener hlc (alistLookup hlc.ListenPort inner) with
    | .error message => .panicked message
    | .ok listener =>
      .added ⟨⟨alistInsert hlc.ListenIP
        (alistInsert hlc.ListenPort (mergeRequestIntoListener hlc listener) inner)
        h.desiredConfig.listenIPs⟩⟩
  else
    .rejected h hlc.validationErrors

/-- Lexicographic comparison of character lists, the order `sort.Strings`
sorts by. -/
def charListLe : List Char → List Char → Bool
  | [], _ => true
  | _ :: _, [] => false
  | a :: as, b :: bs => if a < b then true else if b < a then false else charListLe as bs

/-- Lexicographic string comparison (Go string `<=`). -/
def stringLe (a b : String) : Bool := charListLe a.data b.data

/-- Go `sort.Strings`: ascending lexicographic sort of a string slice. -/
def sortStrings (l : List String) : List String :=
  l.insertionSort (fun a b => stringLe a b = true)

/-- Go `sort.Slice(ports, ports[i] < ports[j])`: ascending numeric sort of the
port keys (keys of one map, hence distinct, so ties cannot arise). -/
def sortPorts (l : List Nat) : List Nat :=
  l.insertionSort (fun a b => a ≤ b)

/-- Go `sort.Slice(backend.Backends, Backends[i].Name < Backends[j].Name)`:
sort the server slice by server name.  Go's `sort.Slice` leaves the relative
order of equal names unspecified; the model uses a stable sort. -/
def sortServers (l : List HaproxyBackendServer) : List HaproxyBackendServer :=
  l.insertionSort (fun a b => stringLe a.Name b.Name = true)

/-- The certificate names selected by the render loop over the (sorted)
certificate slice: a certificate is emitted whenever it differs from the
previously emitted one (`previous != certificate` suppression). -/
def crtDirectives (previous : String) : List String → List String
  | [] => []
  | c :: rest => if previous ≠ c then c :: crtDirectives c rest else crtDirectives previous rest

/-- One `server` line of a backend stanza. -/
def renderServerLine (backend : HaproxyBackend) (s : HaproxyBackendServer) : String :=
  "    server " ++ s.Name ++ " " ++ s.IP ++ ":" ++ toString s.Port
    ++ " check"
    ++ (if backend.UseSSL then " ssl" ++ (if !backend.VerifySSL then " verify none" else "")
        else "")
    ++ "\n"

/-- One backend stanza of the second render pass.  Sorting the server slice is
the in-place `sort.Slice` on `backend.Backends`. -/
def renderBackendStanza (mode : String) (backend : HaproxyBackend) : String :=
  "backend " ++ backend.Name ++ "\n"
    ++ "    mode " ++ mode ++ "\n"
    ++ "    balance " ++ backend.BalanceMethod ++ "\n"
    ++ "\n"
    ++ "    # Backend Servers\n"
    ++ String.join ((sortServers backend.Backends).map (renderServerLine backend))
    ++ "\n"

/-- The backend stanzas contributed by one listener: its hostname keys in
sorted order, one stanza per hostname's backend. -/
def renderBackendsOfListener (listener : haproxyListener) : String :=
  String.join ((sortStrings (listener.hostnameBackends.map Prod.fst)).map (fun name =>
    renderBackendStanza listener.mode ((alistLookup name listener.hostnameBackends).getD default)))

/-- The pair of `use_backend` routing rules emitted for one hostname of an
http listener: one matching the bare Host header, one matching Host:port. -/
def useBackendRules (hostnameBackends : List (String × HaproxyBackend)) (port : Nat)
    (hostname : String) : String :=
  let backend := (alistLookup hostname hostnameBackends).getD default
  "    # Set up backend selection for " ++ hostname ++ "\n"
    ++ "    use_backend " ++ backend.Name
    ++ " if \x7b hdr(host) -i " ++ hostname ++ " \x7d\n"
    ++ "    use_backend " ++ backend.Name
    ++ " if \x7b hdr(host) -i " ++ hostname ++ ":" ++ toString port ++ " \x7d\n"

/-- The frontend stanza of one listener.  The certificate slice is sorted
(the in-place `sort.Strings`; the source sorts it twice, which is the same
list) and deduplicated by previous-equals-current suppression.  For a tcp
listener the sole backend is read from hostname key `"_"`; when that key is
absent the Go code dereferences a nil map entry and crashes, modelled as
`none`. -/
def renderFrontendStanza (listenIP : String) (port : Nat) (listener : haproxyListener) :
    Option String :=
  let base :=
    "frontend " ++ listener.name ++ "\n"
      ++ "    mode " ++ listener.mode ++ "\n"
      ++ "    bind " ++ listenIP ++ ":" ++ toString port
  let base :=
    if listener.useSSL then
      base ++ " ssl"
        ++ String.join ((crtDirectives "" (sortStrings listener.sslCertificates)).map
            (fun certificate => " crt " ++ certificate))
        ++ "\n"
        ++ (if listener.mode = "http" then "    reqadd x-forwarded-proto:\\ https" else "")
    else base
  let base := base ++ "\n" ++ "\n"
  if listener.mode = "http" then
    some (base
      ++ String.join ((sortStrings (listener.hostnameBackends.map Prod.fst)).map
          (useBackendRules listener.hostnameBackends port))
      ++ "\n")
  else if listener.mode = "tcp" then
    match alistLookup "_" listener.hostnameBackends with
    | some backend =>
      some (base
        ++ "    # Set up default_backend\n"
        ++ "    default_backend " ++ backend.Name ++ "\n"
        ++ "\n")
    | none => none
  else
    some (base ++ "\n")

/-- Concatenate an optional rendering over a list, failing when any element
fails: the string accumulation of the render loops. -/
def mapJoinOption {α : Type} (f : α → Option String) : List α → Option String
  | [] => some ""
  | a :: rest =>
    match f a, mapJoinOption f rest with
    | some s, some t => some (s ++ t)
    | _, _ => none

/-- The in-place mutation pass 1 performs on a listener it visits: when the
listener uses SSL, its certificate slice is sorted (`sort.Strings`). -/
def frontendMutate (l : haproxyListener) : haproxyListener :=
  if l.useSSL then { l with sslCertificates := sortStrings l.sslCertificates } else l

/-- The in-place mutation pass 2 performs on one backend it visits: its server
slice is sorted by name (`sort.Slice`). -/
def sortBackendServers (b : HaproxyBackend) : HaproxyBackend :=
  { b with Backends := sortServers b.Backends }

/-- The in-place mutation pass 2 performs on a listener it visits: every
hostname's backend has its server slice sorted by name (`sort.Slice`). -/
def backendMutate (l : haproxyListener) : haproxyListener :=
  { l with
      hostnameBackends := l.hostnameBackends.map (fun p => (p.1, sortBackendServers p.2)) }

/-- The combined in-place mutation a full `Render` call leaves on a listener. -/
def renderMutate (l : haproxyListener) : haproxyListener :=
  backendMutate (frontendMutate l)

/-- The frontend stanzas of one (IP → port map) entry: its ports in ascending
order, one frontend stanza per port. -/
def renderFrontendsOfInner (listenIP : String) (innerMap : List (Nat × haproxyListener)) :
    Option String :=
  mapJoinOption (fun port =>
      renderFrontendStanza listenIP port ((alistLookup port innerMap).getD default))
    (sortPorts (innerMap.map Prod.fst))

/-- The backend stanzas of one (IP → port map) entry, same iteration order. -/
def renderBackendsOfInner (innerMap : List (Nat × haproxyListener)) : String :=
  String.join ((sortPorts (innerMap.map Prod.fst)).map (fun port =>
    renderBackendsOfListener ((alistLookup port innerMap).getD default)))

/-- Pass 1 over the whole store: the sorted listen IPs, each IP's inner map. -/
def renderFrontendsAll (ipsMap : List (String × List (Nat × haproxyListener)))
    (ips : List String) : Option String :=
  mapJoinOption (fun listenIP =>
    renderFrontendsOfInner listenIP ((alistLookup listenIP ipsMap).getD [])) ips

/-- Pass 2 over the whole store, same iteration order as pass 1. -/
def renderBackendsAll (ipsMap : List (String × List (Nat × haproxyListener)))
    (ips : List String) : String :=
  String.join (ips.map (fun listenIP =>
    renderBackendsOfInner ((alistLookup listenIP ipsMap).getD [])))

/-- Go method `Render`: frontend stanzas for every (IP, port) in sorted order,
then backend stanzas in the same order.  Returns the rendered string together
with the post-render store (the in-place slice sorting seen through the
listener pointers); `none` models the crash on a tcp listener with no `"_"`
backend. -/
def Render (h : HaproxyConfigurator) : Option (String × HaproxyConfigurator) :=
  let ipsMap := h.desiredConfig.listenIPs
  let ips := sortStrings (ipsMap.map Prod.fst)
  -- Build Front-Ends
  match renderFrontendsAll ipsMap ips with
  | none => none
  | some frontendText =>
    -- Build Back-Ends
    some (frontendText ++ renderBackendsAll ipsMap ips,
      ⟨⟨ipsMap.map (fun p => (p.1, p.2.map (fun q => (q.1, renderMutate q.2))))⟩⟩)

/-! Relations used to state the claims (analysis vocabulary, not part of the
translated program). -/

/-- Lift a relation to `Option`: both absent, or both present and related. -/
def optionRel {α : Type} (r : α → α → Prop) : Option α → Option α → Prop
  | none, none => True
  | some a, some b => r a b
  | _, _ => False

/-- Two backends that produce identical rendered text: all scalar fields equal
and the same server slice once sorted by name. -/
def backendRenderEq (b₁ b₂ : HaproxyBackend) : Prop :=
  b₁.Name = b₂.Name ∧ b₁.BalanceMethod = b₂.BalanceMethod ∧ b₁.UseSSL = b₂.UseSSL ∧
    b₁.VerifySSL = b₂.VerifySSL ∧ sortServers b₁.Backends = sortServers b₂.Backends

/-- Two listeners that produce identical rendered text. -/
def listenerRenderEq (L₁ L₂ : haproxyListener) : Prop :=
  L₁.name = L₂.name ∧ L₁.mode = L₂.mode ∧ L₁.useSSL = L₂.useSSL ∧
    crtDirectives "" (sortStrings L₁.sslCertificates)
      = crtDirectives "" (sortStrings L₂.sslCertificates) ∧
    sortStrings (L₁.hostnameBackends.map Prod.fst)
      = sortStrings (L₂.hostnameBackends.map Prod.fst) ∧
    ∀ k, optionRel backendRenderEq (alistLookup k L₁.hostnameBackends)
      (alistLookup k L₂.hostnameBackends)

/-- Two inner (port → listener) maps that produce identical rendered text. -/
def innerRenderEq (m₁ m₂ : List (Nat × haproxyListener)) : Prop :=
  sortPorts (m₁.map Prod.fst) = sortPorts (m₂.map Prod.fst) ∧
    ∀ k, optionRel listenerRenderEq (alistLookup k m₁) (alistLookup k m₂)

/-- Two stores that produce identical rendered text. -/
def storeRenderEq (c₁ c₂ : haproxyConfig) : Prop :=
  sortStrings (c₁.listenIPs.map Prod.fst) = sortStrings (c₂.listenIPs.map Prod.fst) ∧
    ∀ k, optionRel innerRenderEq (alistLookup k c₁.listenIPs) (alistLookup k c₂.listenIPs)

/-- Two association-list representations of the same Go hostname map inside a
listener, all other listener state equal: equal fields and a permutation of
the (hostname, backend) entries, with duplicate-free keys. -/
def listenerEquiv (L₁ L₂ : haproxyListener) : Prop :=
  L₁.name = L₂.name ∧ L₁.mode = L₂.mode ∧ L₁.sslCertificates = L₂.sslCertificates ∧
    L₁.useSSL = L₂.useSSL ∧ (L₁.hostnameBackends.map Prod.fst).Nodup ∧
    L₁.hostnameBackends.Perm L₂.hostnameBackends

/-- Two association-list representations of the same Go (port → listener) map. -/
def innerEquiv (m₁ m₂ : List (Nat × haproxyListener)) : Prop :=
  (m₁.map Prod.fst).Nodup ∧ (m₂.map Prod.fst).Nodup ∧
    (m₁.map Prod.fst).Perm (m₂.map Prod.fst) ∧
    ∀ p ∈ m₁, ∀ q ∈ m₂, p.1 = q.1 → listenerEquiv p.2 q.2

/-- Two association-list representations of the same Go configuration store:
the same key sets (duplicate-free) at every level with equivalent values, in
arbitrary iteration order.  This is the input-identity relation under which
`Render` must be deterministic. -/
def storeEquiv (c₁ c₂ : haproxyConfig) : Prop :=
  (c₁.listenIPs.map Prod.fst).Nodup ∧ (c₂.listenIPs.map Prod.fst).Nodup ∧
    (c₁.listenIPs.map Prod.fst).Perm (c₂.listenIPs.map Prod.fst) ∧
    ∀ p ∈ c₁.listenIPs, ∀ q ∈ c₂.listenIPs, p.1 = q.1 → innerEquiv p.2 q.2

instance (L₁ L₂ : haproxyListener) : Decidable (listenerEquiv L₁ L₂) := by
  unfold listenerEquiv
  infer_instance

instance (m₁ m₂ : List (Nat × haproxyListener)) : Decidable (innerEquiv m₁ m₂) := by
  unfold innerEquiv
  infer_instance

instance (c₁ c₂ : haproxyConfig) : Decidable (storeEquiv c₁ c₂) := by
  unfold storeEquiv
  infer_instance

/-- The mutation-time invariant the renderer relies on: every tcp listener has
a backend stored under hostname key `"_"`. -/
def TcpInvariant (h : HaproxyConfigurator) : Prop :=
  ∀ p ∈ h.desiredConfig.listenIPs, ∀ q ∈ p.2,
    q.2.mode = "tcp" → (alistLookup "_" q.2.hostnameBackends).isSome = true

instance (h : HaproxyConfigurator) : Decidable (TcpInvariant h) := by
  unfold TcpInvariant
  infer_instance

/-! Concrete inputs used by the witnesses and counterexamples. -/

/-- The backend pool of the end-to-end example of the specification. -/
def sampleBackend : HaproxyBackend :=
  { Name := "web-be", BalanceMethod := "roundrobin", UseSSL := false, VerifySSL := false
    Backends := [{ Name := "n1", IP := "10.0.0.5", Port := 8080 }] }

/-- The end-to-end example request of the specification. -/
def c6Request : HaproxyListenerConfig :=
  { Name := "web", Backend := sampleBackend, Hostname := "example.com"
    ListenIP := "0.0.0.0", ListenPort := 80, Mode := "http", SslCertificate := ""
    validationErrors := [] }

/-- The store produced by adding the end-to-end example request once. -/
def sampleHttpStore : HaproxyConfigurator :=
  match AddListener Initialize c6Request with
  | .added h => h
  | _ => Initialize

/-- A tcp request used for the duplicate-tcp-port scenarios. -/
def tcpRequest : HaproxyListenerConfig :=
  { Name := "db", Backend := sampleBackend, Hostname := "ignored"
    ListenIP := "10.1.1.1", ListenPort := 5432, Mode := "tcp", SslCertificate := ""
    validationErrors := [] }

/-- The store produced by adding the tcp request once. -/
def sampleTcpStore : HaproxyConfigurator :=
  match AddListener Initialize tcpRequest with
  | .added h => h
  | _ => Initialize

/-- An invalid-mode request. -/
def ftpRequest : HaproxyListenerConfig :=
  { c6Request with Mode := "ftp" }

/-- A request conflicting with the example http listener on both mode and SSL. -/
def conflictRequest : HaproxyListenerConfig :=
  { Name := "db", Backend := sampleBackend, Hostname := "ignored"
    ListenIP := "0.0.0.0", ListenPort := 80, Mode := "tcp", SslCertificate := "cert.pem"
    validationErrors := [] }

/-- The listener stored at ("0.0.0.0", 80) after the example request. -/
def sampleHttpListener : haproxyListener :=
  { name := "web", mode := "http", sslCertificates := []
    hostnameBackends := [("example.com", sampleBackend)], useSSL := false }

/-- The example request with a TLS certificate attached. -/
def certRequest : HaproxyListenerConfig :=
  { c6Request with SslCertificate := "cert.pem" }

/-- The store produced by adding the certificate-carrying request once. -/
def singleCertStore : HaproxyConfigurator :=
  match AddListener Initialize certRequest with
  | .added h => h
  | _ => Initialize

/-- The store produced by adding the certificate-carrying request twice: its
listener holds the certificate name twice in its certificate slice. -/
def doubleCertStore : HaproxyConfigurator :=
  match AddListener Initialize certRequest with
  | .added h₁ =>
    match AddListener h₁ certRequest with
    | .added h₂ => h₂
    | _ => Initialize
  | _ => Initialize

/-- The listener stored at ("0.0.0.0", 80) after adding the
certificate-carrying request twice. -/
def doubleCertListener : haproxyListener :=
  { name := "web", mode := "http", sslCertificates := ["cert.pem", "cert.pem"]
    hostnameBackends := [("example.com", sampleBackend)], useSSL := true }

/-- A store whose certificate slice is out of order: built by adding two
certificate-carrying requests (certificates "b" then "a") for two hostnames of
one listener.  Rendering sorts the slice in place, mutating the store. -/
def unsortedCertStore : HaproxyConfigurator :=
  match AddListener Initialize { certRequest with SslCertificate := "b" } with
  | .added h₁ =>
    match AddListener h₁
        { certRequest with Hostname := "y.example.com", SslCertificate := "a" } with
    | .added h₂ => h₂
    | _ => Initialize
  | _ => Initialize

/-- The result of rendering `unsortedCertStore` (string and post-render store). -/
def unsortedCertRendered : String × HaproxyConfigurator :=
  (Render unsortedCertStore).getD ("", Initialize)

/-- A second listener used by the determinism witness. -/
def apiListener : haproxyListener :=
  { name := "api", mode := "http", sslCertificates := []
    hostnameBackends := [("api.example.com", sampleBackend)], useSSL := false }

/-- A two-hostname listener used by the determinism witness. -/
def twoHostListener : haproxyListener :=
  { name := "web", mode := "http", sslCertificates := []
    hostnameBackends := [("a.example.com", sampleBackend), ("b.example.com", sampleBackend)]
    useSSL := false }

/-- The same listener with its hostname map entries listed in the other order
(the same Go map under a different iteration order). -/
def twoHostListenerRev : haproxyListener :=
  { name := "web", mode := "http", sslCertificates := []
    hostnameBackends := [("b.example.com", sampleBackend), ("a.example.com", sampleBackend)]
    useSSL := false }

/-- One association-list representation of the determinism witness store. -/
def permStoreA : HaproxyConfigurator :=
  ⟨⟨[("10.0.0.1", [(80, twoHostListener), (443, apiListener)]),
     ("10.0.0.2", [(81, apiListener)])]⟩⟩

/-- A different representation of the same Go store: every map iterated in
another order. -/
def permStoreB : HaproxyConfigurator :=
  ⟨⟨[("10.0.0.2", [(81, apiListener)]),
     ("10.0.0.1", [(443, apiListener), (80, twoHostListenerRev)])]⟩⟩

/-! Lemmas about the association-list model of Go maps. -/

theorem alistLookup_mem {α β : Type} [DecidableEq α] {k : α} {v : β} {m : List (α × β)}
    (h : alistLookup k m = some v) : (k, v) ∈ m := by
  induction m with
  | nil => simp [alistLookup] at h
  | cons p rest ih =>
    obtain ⟨k₁, v₁⟩ := p
    simp only [alistLookup] at h
    split at h
    · rename_i hk
      cases h
      subst hk
      exact List.mem_cons_self _ _
    · exact List.mem_cons_of_mem _ (ih h)

theorem alistLookup_isSome_iff {α β : Type} [DecidableEq α] {k : α} {m : List (α × β)} :
    (alistLookup k m).isSome = true ↔ k ∈ m.map Prod.fst := by
  induction m with
  | nil => simp [alistLookup]
  | cons p rest ih =>
    obtain ⟨k₁, v₁⟩ := p
    simp only [alistLookup, List.map_cons, List.mem_cons]
    split
    · rename_i hk
      simp [hk.symm]
    · rename_i hk
      simp only [Option.isSome_some, ih]
      constructor
      · exact fun h => Or.inr h
      · rintro (h | h)
        · exact absurd h.symm hk
        · exact h

theorem alistLookup_eq_none {α β : Type} [DecidableEq α] {k : α} {m : List (α × β)}
    (h : k ∉ m.map Prod.fst) : alistLookup k m = none := by
  cases ho : alistLookup k m with
  | none => rfl
  | some v =>
    exact absurd (alistLookup_isSome_iff.mp (by simp [ho])) h

theorem alistLookup_alistInsert_self {α β : Type} [DecidableEq α] (k : α) (v : β)
    (m : List (α × β)) : alistLookup k (alistInsert k v m) = some v := by
  induction m with
  | nil => simp [alistInsert, alistLookup]
  | cons p rest ih =>
    obtain ⟨k₁, v₁⟩ := p
    simp only [alistInsert]
    split
    · simp [alistLookup]
    · rename_i hk
      simp [alistLookup, hk, ih]

theorem alistLookup_alistInsert_ne {α β : Type} [DecidableEq α] {k' k : α} (v : β)
    (m : List (α × β)) (h : k' ≠ k) :
    alistLookup k' (alistInsert k v m) = alistLookup k' m := by
  have hne : ∀ {a : α}, a = k → ¬ a = k' := by
    rintro a rfl he
    exact h he.symm
  induction m with
  | nil =>
    simp only [alistInsert, alistLookup]
    rw [if_neg (hne rfl)]
  | cons p rest ih =>
    obtain ⟨k₁, v₁⟩ := p
    simp only [alistInsert]
    split
    · rename_i hk
      simp only [alistLookup]
      rw [if_neg (hne rfl), if_neg (hne hk)]
    · simp only [alistLookup, ih]

theorem alistInsert_alistInsert {α β : Type} [DecidableEq α] (k : α) (v v' : β)
    (m : List (α × β)) : alistInsert k v' (alistInsert k v m) = alistInsert k v' m := by
  induction m with
  | nil => simp [alistInsert]
  | cons p rest ih =>
    obtain ⟨k₁, v₁⟩ := p
    simp only [alistInsert]
    split
    · simp [alistInsert]
    · rename_i hk
      simp only [alistInsert, if_neg hk, ih]

theorem keys_alistInsert_of_mem {α β : Type} [DecidableEq α] {k : α} (v : β)
    {m : List (α × β)} (h : k ∈ m.map Prod.fst) :
    (alistInsert k v m).map Prod.fst = m.map Prod.fst := by
  induction m with
  | nil => simp at h
  | cons p rest ih =>
    obtain ⟨k₁, v₁⟩ := p
    simp only [alistInsert]
    split
    · rename_i hk
      simp [hk]
    · rename_i hk
      simp only [List.map_cons, List.mem_cons] at h ⊢
      rcases h with h | h
      · exact absurd h.symm hk
      · rw [ih h]

theorem alistLookup_mapValues {α β γ : Type} [DecidableEq α] (k : α) (f : β → γ)
    (m : List (α × β)) :
    alistLookup k (m.map (fun p => (p.1, f p.2))) = (alistLookup k m).map f := by
  induction m with
  | nil => simp [alistLookup]
  | cons p rest ih =>
    obtain ⟨k₁, v₁⟩ := p
    simp only [List.map_cons, alistLookup]
    split <;> simp_all

theorem keys_mapValues {α β γ : Type} (f : β → γ) (m : List (α × β)) :
    (m.map (fun p => (p.1, f p.2))).map Prod.fst = m.map Prod.fst := by
  induction m with
  | nil => rfl
  | cons p rest ih => simp [ih]

theorem alistLookup_perm {α β : Type} [DecidableEq α] {m₁ m₂ : List (α × β)}
    (p : m₁.Perm m₂) : (m₁.map Prod.fst).Nodup → ∀ k, alistLookup k m₁ = alistLookup k m₂ := by
  induction p with
  | nil => exact fun _ _ => rfl
  | cons x _ ih =>
    intro nd k
    obtain ⟨k₁, v₁⟩ := x
    simp only [List.map_cons, List.nodup_cons] at nd
    simp only [alistLookup]
    split
    · rfl
    · exact ih nd.2 k
  | swap x y l =>
    intro nd k
    obtain ⟨k₁, v₁⟩ := x
    obtain ⟨k₂, v₂⟩ := y
    simp only [List.map_cons, List.nodup_cons, List.mem_cons] at nd
    have hne : ¬ k₂ = k₁ := fun he => nd.1 (Or.inl he)
    simp only [alistLookup]
    by_cases h₂ : k₂ = k
    · subst h₂
      rw [if_pos rfl, if_neg (fun he : k₁ = k₂ => hne he.symm), if_pos rfl]
    · rw [if_neg h₂]
      by_cases h₁ : k₁ = k
      · rw [if_pos h₁, if_pos h₁]
      · rw [if_neg h₁, if_neg h₁, if_neg h₂]
  | trans p₁ p₂ ih₁ ih₂ =>
    intro nd k
    have nd' : _ := (p₁.map Prod.fst).nodup nd
    rw [ih₁ nd k, ih₂ nd' k]

/-! Lemmas about the string order and the sorting wrappers. -/

theorem charListLe_total : ∀ as bs : List Char, charListLe as bs = true ∨ charListLe bs as = true
  | [], _ => Or.inl rfl
  | _ :: _, [] => Or.inr rfl
  | a :: as, b :: bs => by
    rcases lt_trichotomy a b with h | h | h
    · left
      simp [charListLe, h]
    · subst h
      simpa [charListLe, lt_self_iff_false] using charListLe_total as bs
    · right
      simp [charListLe, h]

theorem charListLe_trans :
    ∀ as bs cs : List Char, charListLe as bs = true → charListLe bs cs = true →
      charListLe as cs = true
  | [], _, _, _, _ => rfl
  | _ :: _, [], _, h₁, _ => by simp [charListLe] at h₁
  | _ :: _, _ :: _, [], _, h₂ => by simp [charListLe] at h₂
  | a :: as, b :: bs, c :: cs, h₁, h₂ => by
    simp only [charListLe] at h₁ h₂ ⊢
    rcases lt_trichotomy a b with hab | hab | hab
    · rcases lt_trichotomy b c with hbc | hbc | hbc
      · rw [if_pos (lt_trans hab hbc)]
      · subst hbc
        rw [if_pos hab]
      · rw [if_neg (lt_asymm hbc), if_pos hbc] at h₂
        simp at h₂
    · subst hab
      rcases lt_trichotomy a c with hac | hac | hac
      · rw [if_pos hac]
      · subst hac
        rw [if_neg (lt_irrefl a), if_neg (lt_irrefl a)] at h₁ h₂ ⊢
        exact charListLe_trans as bs cs h₁ h₂
      · rw [if_neg (lt_asymm hac), if_pos hac] at h₂
        simp at h₂
    · rw [if_neg (lt_asymm hab), if_pos hab] at h₁
      simp at h₁

theorem charListLe_antisymm :
    ∀ as bs : List Char, charListLe as bs = true → charListLe bs as = true → as = bs
  | [], [], _, _ => rfl
  | [], _ :: _, _, h₂ => by simp [charListLe] at h₂
  | _ :: _, [], h₁, _ => by simp [charListLe] at h₁
  | a :: as, b :: bs, h₁, h₂ => by
    simp only [charListLe] at h₁ h₂
    rcases lt_trichotomy a b with hab | hab | hab
    · rw [if_neg (lt_asymm hab), if_pos hab] at h₂
      simp at h₂
    · subst hab
      rw [if_neg (lt_irrefl a), if_neg (lt_irrefl a)] at h₁ h₂
      rw [charListLe_antisymm as bs h₁ h₂]
    · rw [if_neg (lt_asymm hab), if_pos hab] at h₁
      simp at h₁

theorem stringLe_total (a b : String) : stringLe a b = true ∨ stringLe b a = true :=
  charListLe_total a.data b.data

theorem stringLe_trans {a b c : String} (h₁ : stringLe a b = true) (h₂ : stringLe b c = true) :
    stringLe a c = true :=
  charListLe_trans a.data b.data c.data h₁ h₂

theorem stringLe_antisymm {a b : String} (h₁ : stringLe a b = true) (h₂ : stringLe b a = true) :
    a = b := by
  have hd := charListLe_antisymm a.data b.data h₁ h₂
  cases a
  cases b
  exact congrArg String.mk hd

theorem stringLe_empty_left (s : String) : stringLe "" s = true := rfl

instance : IsTotal String (fun a b => stringLe a b = true) := ⟨stringLe_total⟩

instance : IsTrans String (fun a b => stringLe a b = true) :=
  ⟨fun _ _ _ h₁ h₂ => stringLe_trans h₁ h₂⟩

instance : IsAntisymm String (fun a b => stringLe a b = true) :=
  ⟨fun _ _ h₁ h₂ => stringLe_antisymm h₁ h₂⟩

instance : IsTotal HaproxyBackendServer (fun a b => stringLe a.Name b.Name = true) :=
  ⟨fun a b => stringLe_total a.Name b.Name⟩

instance : IsTrans HaproxyBackendServer (fun a b => stringLe a.Name b.Name = true) :=
  ⟨fun _ _ _ h₁ h₂ => stringLe_trans h₁ h₂⟩

theorem sortStrings_perm (l : List String) : (sortStrings l).Perm l :=
  List.perm_insertionSort _ l

theorem mem_sortStrings {x : String} {l : List String} : x ∈ sortStrings l ↔ x ∈ l :=
  (sortStrings_perm l).mem_iff

theorem sortStrings_sorted (l : List String) :
    (sortStrings l).Sorted (fun a b => stringLe a b = true) :=
  List.sorted_insertionSort _ l

theorem sortStrings_eq_of_perm {l₁ l₂ : List String} (p : l₁.Perm l₂) :
    sortStrings l₁ = sortStrings l₂ :=
  List.eq_of_perm_of_sorted ((sortStrings_perm l₁).trans (p.trans (sortStrings_perm l₂).symm))
    (sortStrings_sorted l₁) (sortStrings_sorted l₂)

theorem sortStrings_idem (l : List String) : sortStrings (sortStrings l) = sortStrings l :=
  List.Sorted.insertionSort_eq (sortStrings_sorted l)

theorem sortPorts_perm (l : List Nat) : (sortPorts l).Perm l :=
  List.perm_insertionSort _ l

theorem sortPorts_sorted (l : List Nat) : (sortPorts l).Sorted (fun a b => a ≤ b) :=
  List.sorted_insertionSort _ l

theorem sortPorts_eq_of_perm {l₁ l₂ : List Nat} (p : l₁.Perm l₂) :
    sortPorts l₁ = sortPorts l₂ :=
  List.eq_of_perm_of_sorted ((sortPorts_perm l₁).trans (p.trans (sortPorts_perm l₂).symm))
    (sortPorts_sorted l₁) (sortPorts_sorted l₂)

theorem sortServers_perm (l : List HaproxyBackendServer) : (sortServers l).Perm l :=
  List.perm_insertionSort _ l

theorem sortServers_idem (l : List HaproxyBackendServer) :
    sortServers (sortServers l) = sortServers l :=
  List.Sorted.insertionSort_eq (List.sorted_insertionSort _ l)

/-! Lemmas about the certificate deduplication loop. -/

theorem crtDirectives_sublist (previous : String) (l : List String) :
    (crtDirectives previous l).Sublist l := by
  induction l generalizing previous with
  | nil => simp [crtDirectives]
  | cons c rest ih =>
    simp only [crtDirectives]
    split
    · exact List.Sublist.cons₂ c (ih c)
    · exact List.Sublist.cons c (ih previous)

theorem mem_crtDirectives {l : List String} (hs : l.Sorted (fun a b => stringLe a b = true)) :
    ∀ {previous : String}, (∀ y ∈ l, stringLe previous y = true) →
      ∀ {x : String}, (x ∈ crtDirectives previous l ↔ x ∈ l ∧ x ≠ previous) := by
  induction l with
  | nil =>
    intro previous _ x
    simp [crtDirectives]
  | cons c rest ih =>
    intro previous hlb x
    have hs' : rest.Sorted (fun a b => stringLe a b = true) := (List.sorted_cons.mp hs).2
    have hcle : ∀ y ∈ rest, stringLe c y = true := (List.sorted_cons.mp hs).1
    simp only [crtDirectives]
    split
    · rename_i hne
      simp only [List.mem_cons, ih hs' hcle]
      constructor
      · rintro (rfl | ⟨hx, hxc⟩)
        · exact ⟨Or.inl rfl, fun he => hne (he ▸ rfl)⟩
        · refine ⟨Or.inr hx, fun he => ?_⟩
          exact hne (stringLe_antisymm (hlb c (List.mem_cons_self c rest)) (he ▸ hcle x hx))
      · rintro ⟨rfl | hx, hxp⟩
        · exact Or.inl rfl
        · by_cases hxc : x = c
          · exact Or.inl hxc
          · exact Or.inr ⟨hx, hxc⟩
    · rename_i hne
      have hpc : previous = c := not_not.mp hne
      have hlb' : ∀ y ∈ rest, stringLe previous y = true := fun y hy => hpc ▸ hcle y hy
      simp only [List.mem_cons, ih hs' hlb']
      constructor
      · rintro ⟨hx, hxp⟩
        exact ⟨Or.inr hx, hxp⟩
      · rintro ⟨rfl | hx, hxp⟩
        · exact absurd hpc.symm hxp
        · exact ⟨hx, hxp⟩

theorem crtDirectives_nodup {l : List String} (hs : l.Sorted (fun a b => stringLe a b = true)) :
    ∀ {previous : String}, (∀ y ∈ l, stringLe previous y = true) →
      (crtDirectives previous l).Nodup := by
  induction l with
  | nil =>
    intro previous _
    simp [crtDirectives]
  | cons c rest ih =>
    intro previous hlb
    have hs' : rest.Sorted (fun a b => stringLe a b = true) := (List.sorted_cons.mp hs).2
    have hcle : ∀ y ∈ rest, stringLe c y = true := (List.sorted_cons.mp hs).1
    simp only [crtDirectives]
    split
    · refine List.nodup_cons.mpr ⟨fun hc => ?_, ih hs' hcle⟩
      exact ((mem_crtDirectives hs' hcle).mp hc).2 rfl
    · rename_i hne
      have hpc : previous = c := not_not.mp hne
      exact ih hs' (fun y hy => hpc ▸ hcle y hy)

theorem crtDirectives_sorted {l : List String} (hs : l.Sorted (fun a b => stringLe a b = true))
    (previous : String) : (crtDirectives previous l).Sorted (fun a b => stringLe a b = true) :=
  List.Pairwise.sublist (crtDirectives_sublist previous l) hs

theorem crtDirectives_eq_of_mem_iff {l₁ l₂ : List String}
    (hs₁ : l₁.Sorted (fun a b => stringLe a b = true))
    (hs₂ : l₂.Sorted (fun a b => stringLe a b = true))
    (hmem : ∀ x, x ∈ l₁ ↔ x ∈ l₂) :
    crtDirectives "" l₁ = crtDirectives "" l₂ := by
  have lb₁ : ∀ y ∈ l₁, stringLe "" y = true := fun y _ => stringLe_empty_left y
  have lb₂ : ∀ y ∈ l₂, stringLe "" y = true := fun y _ => stringLe_empty_left y
  refine List.eq_of_perm_of_sorted ?_ (crtDirectives_sorted hs₁ "") (crtDirectives_sorted hs₂ "")
  refine (List.perm_ext_iff_of_nodup (crtDirectives_nodup hs₁ lb₁)
    (crtDirectives_nodup hs₂ lb₂)).mpr (fun x => ?_)
  rw [mem_crtDirectives hs₁ lb₁, mem_crtDirectives hs₂ lb₂, hmem]

theorem crtDirectives_append_dup {l : List String} {c : String} (hc : c ∈ l) :
    crtDirectives "" (sortStrings (l ++ [c])) = crtDirectives "" (sortStrings l) := by
  refine crtDirectives_eq_of_mem_iff (sortStrings_sorted _) (sortStrings_sorted _) (fun x => ?_)
  simp only [mem_sortStrings, List.mem_append, List.mem_singleton]
  constructor
  · rintro (h | rfl)
    · exact h
    · exact hc
  · exact Or.inl

theorem crtDirectives_count_one {l : List String} {c : String}
    (hmem : c ∈ l) (hne : c ≠ "") :
    (crtDirectives "" (sortStrings l)).count c = 1 :=
  List.count_eq_one_of_mem
    (crtDirectives_nodup (sortStrings_sorted l) (fun y _ => stringLe_empty_left y))
    ((mem_crtDirectives (sortStrings_sorted l) (fun y _ => stringLe_empty_left y)).mpr
      ⟨mem_sortStrings.mpr hmem, hne⟩)

/-! Lemmas about the optional string concatenation and the congruence of the
renderer under render-equivalence of stores. -/

theorem mapJoinOption_congr {α : Type} {f g : α → Option String} {l : List α}
    (h : ∀ a ∈ l, f a = g a) : mapJoinOption f l = mapJoinOption g l := by
  induction l with
  | nil => rfl
  | cons a rest ih =>
    simp only [mapJoinOption]
    rw [h a (List.mem_cons_self a rest), ih (fun b hb => h b (List.mem_cons_of_mem a hb))]

theorem mapJoinOption_isSome {α : Type} {f : α → Option String} {l : List α}
    (h : ∀ a ∈ l, (f a).isSome = true) : (mapJoinOption f l).isSome = true := by
  induction l with
  | nil => simp [mapJoinOption]
  | cons a rest ih =>
    simp only [mapJoinOption]
    obtain ⟨s, hs⟩ := Option.isSome_iff_exists.mp (h a (List.mem_cons_self a rest))
    obtain ⟨t, ht⟩ :=
      Option.isSome_iff_exists.mp (ih (fun b hb => h b (List.mem_cons_of_mem a hb)))
    simp [hs, ht]

theorem optionRel_of_eq {α : Type} {r : α → α → Prop} (hr : ∀ a, r a a)
    {o₁ o₂ : Option α} (h : o₁ = o₂) : optionRel r o₁ o₂ := by
  subst h
  cases o₁ <;> simp [optionRel, hr]

theorem backendRenderEq_refl (b : HaproxyBackend) : backendRenderEq b b :=
  ⟨rfl, rfl, rfl, rfl, rfl⟩

theorem listenerRenderEq_refl (L : haproxyListener) : listenerRenderEq L L :=
  ⟨rfl, rfl, rfl, rfl, rfl, fun _ => optionRel_of_eq backendRenderEq_refl rfl⟩

theorem innerRenderEq_refl (m : List (Nat × haproxyListener)) : innerRenderEq m m :=
  ⟨rfl, fun _ => optionRel_of_eq listenerRenderEq_refl rfl⟩

theorem renderServerLine_congr {b₁ b₂ : HaproxyBackend}
    (hssl : b₁.UseSSL = b₂.UseSSL) (hver : b₁.VerifySSL = b₂.VerifySSL) :
    renderServerLine b₁ = renderServerLine b₂ := by
  funext s
  simp only [renderServerLine, hssl, hver]

theorem renderBackendStanza_congr {b₁ b₂ : HaproxyBackend} (mode : String)
    (h : backendRenderEq b₁ b₂) :
    renderBackendStanza mode b₁ = renderBackendStanza mode b₂ := by
  obtain ⟨hn, hb, hs, hv, hsrv⟩ := h
  simp only [renderBackendStanza, hn, hb, hsrv, renderServerLine_congr hs hv]

theorem getD_name_congr {m₁ m₂ : List (String × HaproxyBackend)}
    (hlook : ∀ k, optionRel backendRenderEq (alistLookup k m₁) (alistLookup k m₂)) (k : String) :
    ((alistLookup k m₁).getD default).Name = ((alistLookup k m₂).getD default).Name := by
  have hk := hlook k
  cases h₁ : alistLookup k m₁ with
  | none =>
    cases h₂ : alistLookup k m₂ with
    | none => rfl
    | some b =>
      rw [h₁, h₂] at hk
      exact absurd hk (by simp [optionRel])
  | some b₁ =>
    cases h₂ : alistLookup k m₂ with
    | none =>
      rw [h₁, h₂] at hk
      exact absurd hk (by simp [optionRel])
    | some b₂ =>
      rw [h₁, h₂] at hk
      simpa [Option.getD] using hk.1

theorem renderFrontendStanza_congr {L₁ L₂ : haproxyListener} (listenIP : String) (port : Nat)
    (h : listenerRenderEq L₁ L₂) :
    renderFrontendStanza listenIP port L₁ = renderFrontendStanza listenIP port L₂ := by
  obtain ⟨hn, hm, hu, hcrt, hkeys, hlook⟩ := h
  have hrules : ∀ a ∈ sortStrings (L₂.hostnameBackends.map Prod.fst),
      useBackendRules L₁.hostnameBackends port a = useBackendRules L₂.hostnameBackends port a :=
    fun a _ => by simp only [useBackendRules, getD_name_congr hlook a]
  simp only [renderFrontendStanza, hn, hm, hu, hcrt, hkeys, List.map_congr_left hrules]
  have hk := hlook "_"
  cases h₁ : alistLookup "_" L₁.hostnameBackends with
  | none =>
    cases h₂ : alistLookup "_" L₂.hostnameBackends with
    | none => rfl
    | some b =>
      rw [h₁, h₂] at hk
      exact absurd hk (by simp [optionRel])
  | some b₁ =>
    cases h₂ : alistLookup "_" L₂.hostnameBackends with
    | none =>
      rw [h₁, h₂] at hk
      exact absurd hk (by simp [optionRel])
    | some b₂ =>
      rw [h₁, h₂] at hk
      simp only [hk.1]

theorem renderBackendsOfListener_congr {L₁ L₂ : haproxyListener} (h : listenerRenderEq L₁ L₂) :
    renderBackendsOfListener L₁ = renderBackendsOfListener L₂ := by
  obtain ⟨hn, hm, hu, hcrt, hkeys, hlook⟩ := h
  have hbst : ∀ k, renderBackendStanza L₂.mode ((alistLookup k L₁.hostnameBackends).getD default)
      = renderBackendStanza L₂.mode ((alistLookup k L₂.hostnameBackends).getD default) := by
    intro k
    have hk := hlook k
    cases h₁ : alistLookup k L₁.hostnameBackends with
    | none =>
      cases h₂ : alistLookup k L₂.hostnameBackends with
      | none => rfl
      | some b =>
        rw [h₁, h₂] at hk
        exact absurd hk (by simp [optionRel])
    | some b₁ =>
      cases h₂ : alistLookup k L₂.hostnameBackends with
      | none =>
        rw [h₁, h₂] at hk
        exact absurd hk (by simp [optionRel])
      | some b₂ =>
        rw [h₁, h₂] at hk
        exact renderBackendStanza_congr L₂.mode hk
  simp only [renderBackendsOfListener, hm, hkeys]
  exact congrArg String.join (List.map_congr_left (fun a _ => hbst a))

theorem renderFrontendsOfInner_congr {m₁ m₂ : List (Nat × haproxyListener)} (listenIP : String)
    (h : innerRenderEq m₁ m₂) :
    renderFrontendsOfInner listenIP m₁ = renderFrontendsOfInner listenIP m₂ := by
  obtain ⟨hkeys, hlook⟩ := h
  have hst : ∀ port, renderFrontendStanza listenIP port ((alistLookup port m₁).getD default)
      = renderFrontendStanza listenIP port ((alistLookup port m₂).getD default) := by
    intro port
    have hk := hlook port
    cases h₁ : alistLookup port m₁ with
    | none =>
      cases h₂ : alistLookup port m₂ with
      | none => rfl
      | some L =>
        rw [h₁, h₂] at hk
        exact absurd hk (by simp [optionRel])
    | some L₁ =>
      cases h₂ : alistLookup port m₂ with
      | none =>
        rw [h₁, h₂] at hk
        exact absurd hk (by simp [optionRel])
      | some L₂ =>
        rw [h₁, h₂] at hk
        exact renderFrontendStanza_congr listenIP port hk
  simp only [renderFrontendsOfInner, hkeys]
  exact mapJoinOption_congr (fun a _ => hst a)

theorem renderBackendsOfInner_congr {m₁ m₂ : List (Nat × haproxyListener)}
    (h : innerRenderEq m₁ m₂) :
    renderBackendsOfInner m₁ = renderBackendsOfInner m₂ := by
  obtain ⟨hkeys, hlook⟩ := h
  have hst : ∀ port, renderBackendsOfListener ((alistLookup port m₁).getD default)
      = renderBackendsOfListener ((alistLookup port m₂).getD default) := by
    intro port
    have hk := hlook port
    cases h₁ : alistLookup port m₁ with
    | none =>
      cases h₂ : alistLookup port m₂ with
      | none => rfl
      | some L =>
        rw [h₁, h₂] at hk
        exact absurd hk (by simp [optionRel])
    | some L₁ =>
      cases h₂ : alistLookup port m₂ with
      | none =>
        rw [h₁, h₂] at hk
        exact absurd hk (by simp [optionRel])
      | some L₂ =>
        rw [h₁, h₂] at hk
        exact renderBackendsOfListener_congr hk
  simp only [renderBackendsOfInner, hkeys]
  exact congrArg String.join (List.map_congr_left (fun a _ => hst a))

theorem render_congr {h₁ h₂ : HaproxyConfigurator}
    (he : storeRenderEq h₁.desiredConfig h₂.desiredConfig) :
    (Render h₁).map Prod.fst = (Render h₂).map Prod.fst := by
  obtain ⟨hkeys, hlook⟩ := he
  have hinner : ∀ ip,
      optionRel innerRenderEq (alistLookup ip h₁.desiredConfig.listenIPs)
        (alistLookup ip h₂.desiredConfig.listenIPs) := hlook
  have hfin : ∀ ip, renderFrontendsOfInner ip
        ((alistLookup ip h₁.desiredConfig.listenIPs).getD [])
      = renderFrontendsOfInner ip ((alistLookup ip h₂.desiredConfig.listenIPs).getD []) := by
    intro ip
    have hk := hinner ip
    cases ha : alistLookup ip h₁.desiredConfig.listenIPs with
    | none =>
      cases hb : alistLookup ip h₂.desiredConfig.listenIPs with
      | none => rfl
      | some m =>
        rw [ha, hb] at hk
        exact absurd hk (by simp [optionRel])
    | some m₁ =>
      cases hb : alistLookup ip h₂.desiredConfig.listenIPs with
      | none =>
        rw [ha, hb] at hk
        exact absurd hk (by simp [optionRel])
      | some m₂ =>
        rw [ha, hb] at hk
        exact renderFrontendsOfInner_congr ip hk
  have hbin : ∀ ip, renderBackendsOfInner ((alistLookup ip h₁.desiredConfig.listenIPs).getD [])
      = renderBackendsOfInner ((alistLookup ip h₂.desiredConfig.listenIPs).getD []) := by
    intro ip
    have hk := hinner ip
    cases ha : alistLookup ip h₁.desiredConfig.listenIPs with
    | none =>
      cases hb : alistLookup ip h₂.desiredConfig.listenIPs with
      | none => rfl
      | some m =>
        rw [ha, hb] at hk
        exact absurd hk (by simp [optionRel])
    | some m₁ =>
      cases hb : alistLookup ip h₂.desiredConfig.listenIPs with
      | none =>
        rw [ha, hb] at hk
        exact absurd hk (by simp [optionRel])
      | some m₂ =>
        rw [ha, hb] at hk
        exact renderBackendsOfInner_congr hk
  have hf : renderFrontendsAll h₁.desiredConfig.listenIPs
        (sortStrings (h₂.desiredConfig.listenIPs.map Prod.fst))
      = renderFrontendsAll h₂.desiredConfig.listenIPs
        (sortStrings (h₂.desiredConfig.listenIPs.map Prod.fst)) := by
    simp only [renderFrontendsAll]
    exact mapJoinOption_congr (fun a _ => hfin a)
  have hb : renderBackendsAll h₁.desiredConfig.listenIPs
        (sortStrings (h₂.desiredConfig.listenIPs.map Prod.fst))
      = renderBackendsAll h₂.desiredConfig.listenIPs
        (sortStrings (h₂.desiredConfig.listenIPs.map Prod.fst)) := by
    simp only [renderBackendsAll]
    exact congrArg String.join (List.map_congr_left (fun a _ => hbin a))
  simp only [Render, hkeys, hf, hb]
  cases renderFrontendsAll h₂.desiredConfig.listenIPs
      (sortStrings (h₂.desiredConfig.listenIPs.map Prod.fst)) with
  | none => rfl
  | some s => rfl

/-! Transfer from map-representation equivalence to render equivalence. -/

theorem listenerEquiv_renderEq {L₁ L₂ : haproxyListener} (h : listenerEquiv L₁ L₂) :
    listenerRenderEq L₁ L₂ := by
  obtain ⟨hn, hm, hc, hu, hnd, hperm⟩ := h
  refine ⟨hn, hm, hu, by rw [hc], sortStrings_eq_of_perm (hperm.map Prod.fst), fun k => ?_⟩
  exact optionRel_of_eq backendRenderEq_refl (alistLookup_perm hperm hnd k)

theorem innerEquiv_renderEq {m₁ m₂ : List (Nat × haproxyListener)} (h : innerEquiv m₁ m₂) :
    innerRenderEq m₁ m₂ := by
  obtain ⟨hnd₁, hnd₂, hperm, hval⟩ := h
  refine ⟨sortPorts_eq_of_perm hperm, fun k => ?_⟩
  cases h₁ : alistLookup k m₁ with
  | none =>
    cases h₂ : alistLookup k m₂ with
    | none => trivial
    | some L₂ =>
      have hk₂ : k ∈ m₂.map Prod.fst := alistLookup_isSome_iff.mp (by simp [h₂])
      have hk₁ := alistLookup_isSome_iff.mpr (hperm.mem_iff.mpr hk₂)
      rw [h₁] at hk₁
      simp at hk₁
  | some L₁ =>
    cases h₂ : alistLookup k m₂ with
    | none =>
      have hk₁ : k ∈ m₁.map Prod.fst := alistLookup_isSome_iff.mp (by simp [h₁])
      have hk₂ := alistLookup_isSome_iff.mpr (hperm.mem_iff.mp hk₁)
      rw [h₂] at hk₂
      simp at hk₂
    | some L₂ =>
      exact listenerEquiv_renderEq (hval _ (alistLookup_mem h₁) _ (alistLookup_mem h₂) rfl)

theorem storeEquiv_renderEq {c₁ c₂ : haproxyConfig} (h : storeEquiv c₁ c₂) :
    storeRenderEq c₁ c₂ := by
  obtain ⟨hnd₁, hnd₂, hperm, hval⟩ := h
  refine ⟨sortStrings_eq_of_perm hperm, fun k => ?_⟩
  cases h₁ : alistLookup k c₁.listenIPs with
  | none =>
    cases h₂ : alistLookup k c₂.listenIPs with
    | none => trivial
    | some m₂ =>
      have hk₂ : k ∈ c₂.listenIPs.map Prod.fst := alistLookup_isSome_iff.mp (by simp [h₂])
      have hk₁ := alistLookup_isSome_iff.mpr (hperm.mem_iff.mpr hk₂)
      rw [h₁] at hk₁
      simp at hk₁
  | some m₁ =>
    cases h₂ : alistLookup k c₂.listenIPs with
    | none =>
      have hk₁ : k ∈ c₁.listenIPs.map Prod.fst := alistLookup_isSome_iff.mp (by simp [h₁])
      have hk₂ := alistLookup_isSome_iff.mpr (hperm.mem_iff.mp hk₁)
      rw [h₂] at hk₂
      simp at hk₂
    | some m₂ =>
      exact innerEquiv_renderEq (hval _ (alistLookup_mem h₁) _ (alistLookup_mem h₂) rfl)

/-! Lemmas about validation and the mutation API. -/

theorem storeLookup_getD (h : HaproxyConfigurator) (ip : String) (port : Nat) :
    alistLookup port ((alistLookup ip h.desiredConfig.listenIPs).getD [])
      = storeLookup h ip port := by
  simp only [storeLookup]
  cases alistLookup ip h.desiredConfig.listenIPs with
  | none => simp [alistLookup]
  | some inner => simp

theorem modeCheck_true {hlc : HaproxyListenerConfig} (hv : (modeCheck hlc).2 = true) :
    (modeCheck hlc).1 = hlc ∧ (hlc.Mode = "http" ∨ hlc.Mode = "tcp") := by
  unfold modeCheck at hv ⊢
  split at hv
  · simp at hv
  · rename_i hc
    rw [not_and_or, not_not, not_not] at hc
    exact ⟨by rw [if_neg (by rw [not_and_or, not_not, not_not]; exact hc)], hc⟩

theorem sslMatchCheck_true {listener : haproxyListener} {hlc : HaproxyListenerConfig}
    {acc : HaproxyListenerConfig × Bool} (hv : (sslMatchCheck listener hlc acc).2 = true) :
    sslMatchCheck listener hlc acc = acc ∧ listener.useSSL = decide (hlc.SslCertificate ≠ "") := by
  unfold sslMatchCheck at hv ⊢
  split at hv
  · simp at hv
  · rename_i hc
    exact ⟨by rw [if_neg hc], not_ne_iff.mp hc⟩

theorem modeMatchCheck_true {listener : haproxyListener} {hlc : HaproxyListenerConfig}
    {acc : HaproxyListenerConfig × Bool} (hv : (modeMatchCheck listener hlc acc).2 = true) :
    modeMatchCheck listener hlc acc = acc ∧ listener.mode = hlc.Mode := by
  unfold modeMatchCheck at hv ⊢
  split at hv
  · simp at hv
  · rename_i hc
    exact ⟨by rw [if_neg hc], not_ne_iff.mp hc⟩

theorem validate_true_eq {hlc : HaproxyListenerConfig} {h : HaproxyConfigurator}
    (hv : (validate hlc h).2 = true) : (validate hlc h).1 = hlc := by
  unfold validate at hv ⊢
  cases hs : storeLookup h hlc.ListenIP hlc.ListenPort with
  | none =>
    rw [hs] at hv
    replace hv : (modeCheck hlc).2 = true := hv
    show (modeCheck hlc).1 = hlc
    exact (modeCheck_true hv).1
  | some L =>
    rw [hs] at hv
    replace hv : (sslMatchCheck L hlc (modeMatchCheck L hlc (modeCheck hlc))).2 = true := hv
    show (sslMatchCheck L hlc (modeMatchCheck L hlc (modeCheck hlc))).1 = hlc
    obtain ⟨hssl, _⟩ := sslMatchCheck_true hv
    rw [hssl] at hv ⊢
    obtain ⟨hmode, _⟩ := modeMatchCheck_true hv
    rw [hmode] at hv ⊢
    exact (modeCheck_true hv).1

theorem validate_true_inv {hlc : HaproxyListenerConfig} {h : HaproxyConfigurator}
    (hv : (validate hlc h).2 = true) :
    (hlc.Mode = "http" ∨ hlc.Mode = "tcp") ∧
      ∀ L, storeLookup h hlc.ListenIP hlc.ListenPort = some L →
        L.mode = hlc.Mode ∧ L.useSSL = decide (hlc.SslCertificate ≠ "") := by
  unfold validate at hv
  cases hs : storeLookup h hlc.ListenIP hlc.ListenPort with
  | none =>
    rw [hs] at hv
    replace hv : (modeCheck hlc).2 = true := hv
    exact ⟨(modeCheck_true hv).2, fun L hL => by simp at hL⟩
  | some L =>
    rw [hs] at hv
    replace hv : (sslMatchCheck L hlc (modeMatchCheck L hlc (modeCheck hlc))).2 = true := hv
    obtain ⟨hssl, hssleq⟩ := sslMatchCheck_true hv
    rw [hssl] at hv
    obtain ⟨hmode, hmodeeq⟩ := modeMatchCheck_true hv
    rw [hmode] at hv
    refine ⟨(modeCheck_true hv).2, fun L' hL' => ?_⟩
    cases hL'
    exact ⟨hmodeeq, hssleq⟩

theorem findOrCreateListener_some {hlc : HaproxyListenerConfig} {L : haproxyListener}
    (htcp : hlc.Mode ≠ "tcp") : findOrCreateListener hlc (some L) = .ok L := by
  unfold findOrCreateListener
  show (if hlc.Mode = "tcp" then
      Except.error "This could cause unpredictability in the service router"
    else Except.ok L) = Except.ok L
  rw [if_neg htcp]

theorem findOrCreateListener_tcp {hlc : HaproxyListenerConfig} {L : haproxyListener}
    (htcp : hlc.Mode = "tcp") :
    findOrCreateListener hlc (some L)
      = .error "This could cause unpredictability in the service router" := by
  unfold findOrCreateListener
  show (if hlc.Mode = "tcp" then
      Except.error "This could cause unpredictability in the service router"
    else Except.ok L)
    = Except.error "This could cause unpredictability in the service router"
  rw [if_pos htcp]

theorem mergeRequestIntoListener_mode (hlc : HaproxyListenerConfig) (L : haproxyListener) :
    (mergeRequestIntoListener hlc L).mode = L.mode := by
  unfold mergeRequestIntoListener
  split <;> rfl

theorem mergeRequestIntoListener_name (hlc : HaproxyListenerConfig) (L : haproxyListener) :
    (mergeRequestIntoListener hlc L).name = L.name := by
  unfold mergeRequestIntoListener
  split <;> rfl

theorem mergeRequestIntoListener_useSSL (hlc : HaproxyListenerConfig) (L : haproxyListener) :
    (mergeRequestIntoListener hlc L).useSSL = L.useSSL := by
  unfold mergeRequestIntoListener
  split <;> rfl

theorem mergeRequestIntoListener_certs (hlc : HaproxyListenerConfig) (L : haproxyListener) :
    (mergeRequestIntoListener hlc L).sslCertificates
      = if hlc.SslCertificate ≠ "" then L.sslCertificates ++ [hlc.SslCertificate]
        else L.sslCertificates := by
  unfold mergeRequestIntoListener
  split <;> rfl

theorem mergeRequestIntoListener_hostnames (hlc : HaproxyListenerConfig) (L : haproxyListener) :
    (mergeRequestIntoListener hlc L).hostnameBackends
      = alistInsert (if hlc.Mode = "tcp" then "_" else hlc.Hostname) hlc.Backend
          L.hostnameBackends := by
  unfold mergeRequestIntoListener
  split <;> rfl

theorem addListener_rejected {h : HaproxyConfigurator} {hlc : HaproxyListenerConfig}
    (hv : (validate hlc h).2 = false) :
    AddListener h hlc = .rejected h (validate hlc h).1.validationErrors := by
  simp only [AddListener, hv, Bool.false_eq_true, if_false]

theorem addListener_eq_none {h : HaproxyConfigurator} {hlc : HaproxyListenerConfig}
    (hv : (validate hlc h).2 = true)
    (hL : storeLookup h hlc.ListenIP hlc.ListenPort = none) :
    AddListener h hlc = .added ⟨⟨alistInsert hlc.ListenIP
      (alistInsert hlc.ListenPort (mergeRequestIntoListener hlc
        { name := hlc.Name, mode := hlc.Mode, sslCertificates := [],
          hostnameBackends := [], useSSL := decide (hlc.SslCertificate ≠ "") })
        ((alistLookup hlc.ListenIP h.desiredConfig.listenIPs).getD []))
      h.desiredConfig.listenIPs⟩⟩ := by
  have he := validate_true_eq hv
  simp only [AddListener, hv, he, if_true]
  rw [storeLookup_getD, hL]
  rfl

theorem addListener_eq_some {h : HaproxyConfigurator} {hlc : HaproxyListenerConfig}
    {L : haproxyListener}
    (hv : (validate hlc h).2 = true)
    (hL : storeLookup h hlc.ListenIP hlc.ListenPort = some L)
    (htcp : hlc.Mode ≠ "tcp") :
    AddListener h hlc = .added ⟨⟨alistInsert hlc.ListenIP
      (alistInsert hlc.ListenPort (mergeRequestIntoListener hlc L)
        ((alistLookup hlc.ListenIP h.desiredConfig.listenIPs).getD []))
      h.desiredConfig.listenIPs⟩⟩ := by
  have he := validate_true_eq hv
  simp only [AddListener, hv, he, if_true]
  rw [storeLookup_getD, hL, findOrCreateListener_some htcp]

theorem addListener_tcp_conflict {h : HaproxyConfigurator} {hlc : HaproxyListenerConfig}
    {L : haproxyListener}
    (hv : (validate hlc h).2 = true)
    (hL : storeLookup h hlc.ListenIP hlc.ListenPort = some L)
    (htcp : hlc.Mode = "tcp") :
    AddListener h hlc = .panicked "This could cause unpredictability in the service router" := by
  have he := validate_true_eq hv
  simp only [AddListener, hv, he, if_true]
  rw [storeLookup_getD, hL, findOrCreateListener_tcp htcp]

theorem addListener_added_inv {h h₁ : HaproxyConfigurator} {hlc : HaproxyListenerConfig}
    (e : AddListener h hlc = .added h₁) :
    (validate hlc h).2 = true ∧
    ∃ L₀ : haproxyListener,
      ((storeLookup h hlc.ListenIP hlc.ListenPort = none ∧
          L₀ = { name := hlc.Name, mode := hlc.Mode, sslCertificates := [],
                 hostnameBackends := [], useSSL := decide (hlc.SslCertificate ≠ "") }) ∨
        (storeLookup h hlc.ListenIP hlc.ListenPort = some L₀ ∧ hlc.Mode ≠ "tcp")) ∧
      h₁ = ⟨⟨alistInsert hlc.ListenIP
        (alistInsert hlc.ListenPort (mergeRequestIntoListener hlc L₀)
          ((alistLookup hlc.ListenIP h.desiredConfig.listenIPs).getD []))
        h.desiredConfig.listenIPs⟩⟩ := by
  by_cases hv : (validate hlc h).2 = true
  · refine ⟨hv, ?_⟩
    cases hL : storeLookup h hlc.ListenIP hlc.ListenPort with
    | none =>
      rw [addListener_eq_none hv hL] at e
      injection e with he
      subst he
      exact ⟨_, Or.inl ⟨rfl, rfl⟩, rfl⟩
    | some L =>
      by_cases htcp : hlc.Mode = "tcp"
      · rw [addListener_tcp_conflict hv hL htcp] at e
        simp at e
      · rw [addListener_eq_some hv hL htcp] at e
        injection e with he
        subst he
        exact ⟨L, Or.inr ⟨rfl, htcp⟩, rfl⟩
  · rw [Bool.not_eq_true] at hv
    rw [addListener_rejected hv] at e
    simp at e

/-! Totality of the renderer under the tcp invariant. -/

theorem default_listener_mode : (default : haproxyListener).mode = "" := rfl

theorem renderFrontendStanza_isSome {ip : String} {port : Nat} {L : haproxyListener}
    (h : L.mode = "tcp" → (alistLookup "_" L.hostnameBackends).isSome = true) :
    (renderFrontendStanza ip port L).isSome = true := by
  unfold renderFrontendStanza
  by_cases hhttp : L.mode = "http"
  · simp [hhttp]
  · by_cases htcp : L.mode = "tcp"
    · obtain ⟨b, hb⟩ := Option.isSome_iff_exists.mp (h htcp)
      simp [hhttp, htcp, hb]
    · simp [hhttp, htcp]

theorem render_isSome {h : HaproxyConfigurator} (inv : TcpInvariant h) :
    (Render h).isSome = true := by
  have hf : (renderFrontendsAll h.desiredConfig.listenIPs
      (sortStrings (h.desiredConfig.listenIPs.map Prod.fst))).isSome = true := by
    unfold renderFrontendsAll
    apply mapJoinOption_isSome
    intro ip _
    unfold renderFrontendsOfInner
    apply mapJoinOption_isSome
    intro port _
    apply renderFrontendStanza_isSome
    intro htcp
    cases hinner : alistLookup ip h.desiredConfig.listenIPs with
    | none =>
      rw [hinner] at htcp
      exact absurd htcp (by simp [alistLookup, default_listener_mode])
    | some inner =>
      rw [hinner] at htcp
      simp only [Option.getD_some] at htcp
      simp only [Option.getD_some]
      cases hLp : alistLookup port inner with
      | none =>
        rw [hLp] at htcp
        exact absurd htcp (by simp [default_listener_mode])
      | some L =>
        rw [hLp] at htcp
        simp only [Option.getD_some] at htcp
        simp only [Option.getD_some]
        exact inv (ip, inner) (alistLookup_mem hinner) (port, L) (alistLookup_mem hLp) htcp
  obtain ⟨f, hf'⟩ := Option.isSome_iff_exists.mp hf
  simp only [Render, hf']
  rfl

/-! The in-place mutation `Render` leaves behind: characterisation and
stability of a second render. -/

theorem frontendMutate_name (L : haproxyListener) : (frontendMutate L).name = L.name := by
  unfold frontendMutate
  split <;> rfl

theorem frontendMutate_mode (L : haproxyListener) : (frontendMutate L).mode = L.mode := by
  unfold frontendMutate
  split <;> rfl

theorem frontendMutate_useSSL (L : haproxyListener) : (frontendMutate L).useSSL = L.useSSL := by
  unfold frontendMutate
  split <;> rfl

theorem frontendMutate_hostnames (L : haproxyListener) :
    (frontendMutate L).hostnameBackends = L.hostnameBackends := by
  unfold frontendMutate
  split <;> rfl

theorem frontendMutate_certs (L : haproxyListener) :
    (frontendMutate L).sslCertificates
      = if L.useSSL then sortStrings L.sslCertificates else L.sslCertificates := by
  unfold frontendMutate
  split <;> rename_i hu <;> simp [hu]

theorem renderMutate_certs (L : haproxyListener) :
    (renderMutate L).sslCertificates
      = if L.useSSL then sortStrings L.sslCertificates else L.sslCertificates := by
  unfold renderMutate backendMutate
  exact frontendMutate_certs L

theorem renderMutate_hostnames (L : haproxyListener) :
    (renderMutate L).hostnameBackends
      = L.hostnameBackends.map (fun p => (p.1, sortBackendServers p.2)) := by
  unfold renderMutate backendMutate
  rw [frontendMutate_hostnames]

theorem sortBackendServers_renderEq (b : HaproxyBackend) :
    backendRenderEq (sortBackendServers b) b :=
  ⟨rfl, rfl, rfl, rfl, sortServers_idem b.Backends⟩

theorem sortBackendServers_idem (b : HaproxyBackend) :
    sortBackendServers (sortBackendServers b) = sortBackendServers b := by
  simp [sortBackendServers, sortServers_idem]

theorem renderMutate_renderEq (L : haproxyListener) : listenerRenderEq (renderMutate L) L := by
  refine ⟨?_, ?_, ?_, ?_, ?_, ?_⟩
  · show (backendMutate (frontendMutate L)).name = L.name
    exact frontendMutate_name L
  · show (backendMutate (frontendMutate L)).mode = L.mode
    exact frontendMutate_mode L
  · show (backendMutate (frontendMutate L)).useSSL = L.useSSL
    exact frontendMutate_useSSL L
  · rw [renderMutate_certs]
    by_cases hu : L.useSSL
    · rw [if_pos hu, sortStrings_idem]
    · rw [if_neg hu]
  · rw [renderMutate_hostnames, keys_mapValues]
  · intro k
    rw [renderMutate_hostnames, alistLookup_mapValues]
    cases alistLookup k L.hostnameBackends with
    | none => trivial
    | some b =>
      show backendRenderEq (sortBackendServers b) b
      exact sortBackendServers_renderEq b

theorem mutated_storeRenderEq (c : haproxyConfig) :
    storeRenderEq ⟨c.listenIPs.map (fun p => (p.1, p.2.map (fun q => (q.1, renderMutate q.2))))⟩ c := by
  refine ⟨?_, ?_⟩
  · show sortStrings ((c.listenIPs.map (fun p =>
      (p.1, p.2.map (fun q => (q.1, renderMutate q.2))))).map Prod.fst) = _
    rw [keys_mapValues]
  · intro k
    show optionRel innerRenderEq
      (alistLookup k (c.listenIPs.map (fun p => (p.1, p.2.map (fun q => (q.1, renderMutate q.2))))))
      (alistLookup k c.listenIPs)
    rw [alistLookup_mapValues]
    cases alistLookup k c.listenIPs with
    | none => trivial
    | some inner =>
      show innerRenderEq (inner.map (fun q => (q.1, renderMutate q.2))) inner
      refine ⟨by rw [keys_mapValues], fun k' => ?_⟩
      rw [alistLookup_mapValues]
      cases alistLookup k' inner with
      | none => trivial
      | some L =>
        show listenerRenderEq (renderMutate L) L
        exact renderMutate_renderEq L

theorem renderMutate_useSSL (L : haproxyListener) : (renderMutate L).useSSL = L.useSSL :=
  frontendMutate_useSSL L

theorem frontendMutate_renderMutate (L : haproxyListener) :
    frontendMutate (renderMutate L) = renderMutate L := by
  unfold frontendMutate
  split
  · rename_i hu
    have hL : L.useSSL = true := by rw [← renderMutate_useSSL]; exact hu
    have hc : sortStrings (renderMutate L).sslCertificates = (renderMutate L).sslCertificates := by
      rw [renderMutate_certs, if_pos hL, sortStrings_idem]
    rw [hc]
  · rfl

theorem backendMutate_idem (M : haproxyListener) :
    backendMutate (backendMutate M) = backendMutate M := by
  unfold backendMutate
  simp only [List.map_map]
  congr 1
  refine List.map_congr_left (fun p _ => ?_)
  simp [Function.comp, sortBackendServers_idem]

theorem renderMutate_idem (L : haproxyListener) :
    renderMutate (renderMutate L) = renderMutate L := by
  show backendMutate (frontendMutate (renderMutate L)) = renderMutate L
  rw [frontendMutate_renderMutate]
  show backendMutate (backendMutate (frontendMutate L)) = backendMutate (frontendMutate L)
  exact backendMutate_idem (frontendMutate L)

theorem render_some_inv {h : HaproxyConfigurator} {s : String} {h' : HaproxyConfigurator}
    (e : Render h = some (s, h')) :
    ∃ f, renderFrontendsAll h.desiredConfig.listenIPs
        (sortStrings (h.desiredConfig.listenIPs.map Prod.fst)) = some f ∧
      s = f ++ renderBackendsAll h.desiredConfig.listenIPs
        (sortStrings (h.desiredConfig.listenIPs.map Prod.fst)) ∧
      h' = ⟨⟨h.desiredConfig.listenIPs.map (fun p =>
        (p.1, p.2.map (fun q => (q.1, renderMutate q.2))))⟩⟩ := by
  simp only [Render] at e
  cases hf : renderFrontendsAll h.desiredConfig.listenIPs
      (sortStrings (h.desiredConfig.listenIPs.map Prod.fst)) with
  | none =>
    rw [hf] at e
    exact absurd e (by simp)
  | some f =>
    rw [hf] at e
    replace e : some (f ++ renderBackendsAll h.desiredConfig.listenIPs
        (sortStrings (h.desiredConfig.listenIPs.map Prod.fst)),
      (⟨⟨h.desiredConfig.listenIPs.map (fun p =>
        (p.1, p.2.map (fun q => (q.1, renderMutate q.2))))⟩⟩ : HaproxyConfigurator))
        = some (s, h') := e
    injection e with e₂
    exact ⟨f, rfl, (congrArg Prod.fst e₂).symm, (congrArg Prod.snd e₂).symm⟩

theorem render_stable {h : HaproxyConfigurator} {s : String} {h' : HaproxyConfigurator}
    (e : Render h = some (s, h')) : Render h' = some (s, h') := by
  obtain ⟨f, hf, hs, hh⟩ := render_some_inv e
  have hre : storeRenderEq h'.desiredConfig h.desiredConfig := by
    rw [hh]
    exact mutated_storeRenderEq h.desiredConfig
  have hstr := render_congr hre
  rw [e] at hstr
  cases e' : Render h' with
  | none =>
    rw [e'] at hstr
    simp at hstr
  | some p =>
    obtain ⟨s', h''⟩ := p
    rw [e'] at hstr
    simp only [Option.map] at hstr
    replace hstr : s' = s := by
      have := congrArg (fun o => o.getD "") hstr
      simpa using this
    obtain ⟨f', hf', hs', hh'⟩ := render_some_inv e'
    have hmm : h'' = h' := by
      rw [hh', hh]
      simp only [List.map_map]
      refine congrArg (fun l => (⟨⟨l⟩⟩ : HaproxyConfigurator)) ?_
      refine List.map_congr_left (fun p _ => ?_)
      simp only [Function.comp, List.map_map]
      refine congrArg (fun l => (p.1, l)) ?_
      refine List.map_congr_left (fun q _ => ?_)
      simp [Function.comp, renderMutate_idem]
    rw [hstr, hmm]

/-! Remaining helper lemmas for the claims. -/

theorem modeMatchCheck_false {listener : haproxyListener} {hlc : HaproxyListenerConfig}
    {acc : HaproxyListenerConfig × Bool} (h : acc.2 = false) :
    (modeMatchCheck listener hlc acc).2 = false := by
  unfold modeMatchCheck
  split
  · rfl
  · exact h

theorem sslMatchCheck_false {listener : haproxyListener} {hlc : HaproxyListenerConfig}
    {acc : HaproxyListenerConfig × Bool} (h : acc.2 = false) :
    (sslMatchCheck listener hlc acc).2 = false := by
  unfold sslMatchCheck
  split
  · rfl
  · exact h

theorem renderMutate_name (L : haproxyListener) : (renderMutate L).name = L.name := by
  show (backendMutate (frontendMutate L)).name = L.name
  exact frontendMutate_name L

theorem renderMutate_mode (L : haproxyListener) : (renderMutate L).mode = L.mode := by
  show (backendMutate (frontendMutate L)).mode = L.mode
  exact frontendMutate_mode L

theorem storeRenderEq_insert {ips : List (String × List (Nat × haproxyListener))}
    {ip : String} {innerA : List (Nat × haproxyListener)} {port : Nat}
    {L₁ L₂ : haproxyListener}
    (hipA : alistLookup ip ips = some innerA)
    (hport : alistLookup port innerA = some L₁)
    (hL : listenerRenderEq L₂ L₁) :
    storeRenderEq ⟨alistInsert ip (alistInsert port L₂ innerA) ips⟩ ⟨ips⟩ := by
  refine ⟨?_, ?_⟩
  · show sortStrings ((alistInsert ip (alistInsert port L₂ innerA) ips).map Prod.fst)
      = sortStrings (ips.map Prod.fst)
    rw [keys_alistInsert_of_mem _ (alistLookup_isSome_iff.mp (by simp [hipA]))]
  · intro k
    show optionRel innerRenderEq (alistLookup k (alistInsert ip (alistInsert port L₂ innerA) ips))
      (alistLookup k ips)
    by_cases hk : k = ip
    · subst hk
      rw [alistLookup_alistInsert_self, hipA]
      show innerRenderEq (alistInsert port L₂ innerA) innerA
      refine ⟨?_, ?_⟩
      · show sortPorts ((alistInsert port L₂ innerA).map Prod.fst)
          = sortPorts (innerA.map Prod.fst)
        rw [keys_alistInsert_of_mem _ (alistLookup_isSome_iff.mp (by simp [hport]))]
      · intro p
        by_cases hp : p = port
        · subst hp
          rw [alistLookup_alistInsert_self, hport]
          exact hL
        · rw [alistLookup_alistInsert_ne _ _ hp]
          exact optionRel_of_eq listenerRenderEq_refl rfl
    · rw [alistLookup_alistInsert_ne _ _ hk]
      exact optionRel_of_eq innerRenderEq_refl rfl

/-! The claims. -/

/-- C1: for every store in which a listener already exists at
(ListenIP, ListenPort), a second AddListener request with Mode = "tcp" that
passes validation triggers the fatal abort path (the Go panic, modelled as
the `panicked` outcome), which is distinct from the ordinary recoverable
validation failure (`rejected`). -/
theorem C1_duplicate_tcp_is_fatal (h : HaproxyConfigurator) (hlc : HaproxyListenerConfig)
    (hoccupied : (storeLookup h hlc.ListenIP hlc.ListenPort).isSome = true)
    (hmode : hlc.Mode = "tcp")
    (hvalid : (validate hlc h).2 = true) :
    AddListener h hlc = .panicked "This could cause unpredictability in the service router" := by
  obtain ⟨L, hL⟩ := Option.isSome_iff_exists.mp hoccupied
  exact addListener_tcp_conflict hvalid hL hmode

/-- Witness for C1 at the concrete duplicate-tcp scenario. -/
theorem C1_duplicate_tcp_is_fatal_witness :
    (storeLookup sampleTcpStore tcpRequest.ListenIP tcpRequest.ListenPort).isSome = true ∧
      tcpRequest.Mode = "tcp" ∧ (validate tcpRequest sampleTcpStore).2 = true ∧
      AddListener sampleTcpStore tcpRequest
        = .panicked "This could cause unpredictability in the service router" :=
  ⟨by decide, by decide, by decide,
    C1_duplicate_tcp_is_fatal sampleTcpStore tcpRequest (by decide) (by decide) (by decide)⟩

/-- C2: Render is deterministic over the Go-map content of the store: any two
association-list representations of the same store (same duplicate-free key
sets at every level, any iteration order) render to byte-identical strings.
The sorted iteration (listen IPs lexicographically, ports ascending,
hostnames, certificates and server names sorted) is what makes this hold. -/
theorem C2_render_deterministic (h₁ h₂ : HaproxyConfigurator)
    (he : storeEquiv h₁.desiredConfig h₂.desiredConfig) :
    (Render h₁).map Prod.fst = (Render h₂).map Prod.fst :=
  render_congr (storeEquiv_renderEq he)

/-- Witness for C2 on two permuted representations of one two-IP store. -/
theorem C2_render_deterministic_witness :
    storeEquiv permStoreA.desiredConfig permStoreB.desiredConfig ∧
      (Render permStoreA).map Prod.fst = (Render permStoreB).map Prod.fst :=
  ⟨by decide, C2_render_deterministic permStoreA permStoreB (by decide)⟩

/-- C3: on an already-occupied (ListenIP, ListenPort), the mode-match check
and the SSL-usage-match check run independently — both failures are reported
in one call — and the request is rejected with the accumulated messages while
the store is returned unchanged (atomic reject). -/
theorem C3_both_checks_and_atomic_reject (h : HaproxyConfigurator)
    (hlc : HaproxyListenerConfig) (L : haproxyListener)
    (hL : storeLookup h hlc.ListenIP hlc.ListenPort = some L)
    (hmode : L.mode ≠ hlc.Mode)
    (hssl : L.useSSL ≠ decide (hlc.SslCertificate ≠ "")) :
    AddListener h hlc = .rejected h ((validate hlc h).1.validationErrors) ∧
      "Mode does not match on service" ∈ (validate hlc h).1.validationErrors ∧
      "SSL Certificate provided on a service that isn\x27t using SSL"
        ∈ (validate hlc h).1.validationErrors := by
  have hveq : validate hlc h = sslMatchCheck L hlc (modeMatchCheck L hlc (modeCheck hlc)) := by
    unfold validate
    rw [hL]
  have hmm : modeMatchCheck L hlc (modeCheck hlc)
      = (addValidationError (modeCheck hlc).1 "Mode does not match on service", false) := by
    unfold modeMatchCheck
    rw [if_pos hmode]
  have hsm : sslMatchCheck L hlc (modeMatchCheck L hlc (modeCheck hlc))
      = (addValidationError
          (addValidationError (modeCheck hlc).1 "Mode does not match on service")
          "SSL Certificate provided on a service that isn\x27t using SSL", false) := by
    unfold sslMatchCheck
    rw [hmm, if_pos hssl]
  have hv2 : (validate hlc h).2 = false := by rw [hveq, hsm]
  refine ⟨addListener_rejected hv2, ?_, ?_⟩ <;>
    rw [hveq, hsm] <;> simp [addValidationError]

/-- Witness for C3: a tcp+certificate request against the plain http example
listener fails both checks at once and is rejected atomically. -/
theorem C3_both_checks_and_atomic_reject_witness :
    storeLookup sampleHttpStore conflictRequest.ListenIP conflictRequest.ListenPort
        = some sampleHttpListener ∧
      sampleHttpListener.mode ≠ conflictRequest.Mode ∧
      sampleHttpListener.useSSL ≠ decide (conflictRequest.SslCertificate ≠ "") ∧
      (AddListener sampleHttpStore conflictRequest
          = .rejected sampleHttpStore
              ((validate conflictRequest sampleHttpStore).1.validationErrors) ∧
        "Mode does not match on service"
          ∈ (validate conflictRequest sampleHttpStore).1.validationErrors ∧
        "SSL Certificate provided on a service that isn\x27t using SSL"
          ∈ (validate conflictRequest sampleHttpStore).1.validationErrors) :=
  ⟨by decide, by decide, by decide,
    C3_both_checks_and_atomic_reject sampleHttpStore conflictRequest sampleHttpListener
      (by decide) (by decide) (by decide)⟩

/-- C7: a request whose Mode is neither "http" nor "tcp" always fails
validation: AddListener rejects it and returns the store unchanged, for every
prior store state. -/
theorem C7_invalid_mode_rejected (h : HaproxyConfigurator) (hlc : HaproxyListenerConfig)
    (hhttp : hlc.Mode ≠ "http") (htcp : hlc.Mode ≠ "tcp") :
    AddListener h hlc = .rejected h ((validate hlc h).1.validationErrors) := by
  apply addListener_rejected
  have hmc : (modeCheck hlc).2 = false := by
    unfold modeCheck
    rw [if_pos ⟨hhttp, htcp⟩]
  unfold validate
  cases hs : storeLookup h hlc.ListenIP hlc.ListenPort with
  | none =>
    show (modeCheck hlc).2 = false
    exact hmc
  | some L =>
    show (sslMatchCheck L hlc (modeMatchCheck L hlc (modeCheck hlc))).2 = false
    exact sslMatchCheck_false (modeMatchCheck_false hmc)

/-- Witness for C7: the "ftp" request is rejected on the empty store. -/
theorem C7_invalid_mode_rejected_witness :
    ftpRequest.Mode ≠ "http" ∧ ftpRequest.Mode ≠ "tcp" ∧
      AddListener Initialize ftpRequest
        = .rejected Initialize ((validate ftpRequest Initialize).1.validationErrors) :=
  ⟨by decide, by decide, C7_invalid_mode_rejected Initialize ftpRequest (by decide) (by decide)⟩

/-- C9 counterexample: supplying the same certificate name twice leaves the
stored certificate slice with a duplicate — the stored collection does not
have set semantics. -/
theorem C9_counterexample :
    ((storeLookup doubleCertStore "0.0.0.0" 80).getD default).sslCertificates
        = ["cert.pem", "cert.pem"] ∧
      ¬ ((storeLookup doubleCertStore "0.0.0.0" 80).getD default).sslCertificates.Nodup :=
  ⟨by decide, by decide⟩

/-- C9 amended: the stored certificate collection is an append-only slice that
may contain duplicates; set semantics holds only observationally at render
time — the sequence of crt directives derived from any listener's stored
slice (sorted, previous-equals-current suppression) is duplicate-free. -/
theorem C9_amended_crt_directives_nodup (L : haproxyListener) :
    (crtDirectives "" (sortStrings L.sslCertificates)).Nodup :=
  crtDirectives_nodup (sortStrings_sorted _) (fun y _ => stringLe_empty_left y)

/-- C10: Render is total on every store satisfying the tcp invariant (every
tcp listener has a backend stored under hostname key "_"): it returns a
string without failing. -/
theorem C10_render_total (h : HaproxyConfigurator) (inv : TcpInvariant h) :
    (Render h).isSome = true :=
  render_isSome inv

/-- Witness for C10 on the concrete tcp store. -/
theorem C10_render_total_witness :
    TcpInvariant sampleTcpStore ∧ (Render sampleTcpStore).isSome = true :=
  ⟨by decide, C10_render_total sampleTcpStore (by decide)⟩

/-- C5: adding the same (non-empty) certificate name twice to one listener via
AddListener results in exactly one crt directive for that certificate in the
rendered frontend stanza: the directive list the renderer derives from the
final listener counts it once. -/
theorem C5_certificate_dedup (h h₁ h₂ : HaproxyConfigurator)
    (hlc₁ hlc₂ : HaproxyListenerConfig) (L : haproxyListener)
    (e₁ : AddListener h hlc₁ = .added h₁)
    (e₂ : AddListener h₁ hlc₂ = .added h₂)
    (hip : hlc₂.ListenIP = hlc₁.ListenIP)
    (hport : hlc₂.ListenPort = hlc₁.ListenPort)
    (hcert : hlc₂.SslCertificate = hlc₁.SslCertificate)
    (hne : hlc₁.SslCertificate ≠ "")
    (hL : storeLookup h₂ hlc₁.ListenIP hlc₁.ListenPort = some L) :
    (crtDirectives "" (sortStrings L.sslCertificates)).count hlc₁.SslCertificate = 1 := by
  obtain ⟨hv₂, L₀, _, hh₂⟩ := addListener_added_inv e₂
  have hL' : storeLookup h₂ hlc₁.ListenIP hlc₁.ListenPort
      = some (mergeRequestIntoListener hlc₂ L₀) := by
    rw [hh₂, ← hip, ← hport]
    unfold storeLookup
    rw [alistLookup_alistInsert_self]
    exact alistLookup_alistInsert_self _ _ _
  rw [hL'] at hL
  injection hL with hLe
  subst hLe
  have hmem : hlc₁.SslCertificate ∈ (mergeRequestIntoListener hlc₂ L₀).sslCertificates := by
    rw [mergeRequestIntoListener_certs, hcert, if_pos hne]
    simp
  exact crtDirectives_count_one hmem hne

/-- Witness for C5: the certificate-carrying example request added twice. -/
theorem C5_certificate_dedup_witness :
    AddListener Initialize certRequest = .added singleCertStore ∧
      AddListener singleCertStore certRequest = .added doubleCertStore ∧
      certRequest.SslCertificate ≠ "" ∧
      storeLookup doubleCertStore certRequest.ListenIP certRequest.ListenPort
        = some doubleCertListener ∧
      (crtDirectives "" (sortStrings doubleCertListener.sslCertificates)).count
        certRequest.SslCertificate = 1 :=
  ⟨by decide, by decide, by decide, by decide,
    C5_certificate_dedup Initialize singleCertStore doubleCertStore certRequest certRequest
      doubleCertListener (by decide) (by decide) rfl rfl rfl (by decide) (by decide)⟩

/-- C6: the end-to-end example — the single request
{Name=web, Backend={Name=web-be, BalanceMethod=roundrobin,
Servers=[{n1,10.0.0.5,8080}]}, Hostname=example.com, ListenIP=0.0.0.0,
ListenPort=80, Mode=http} renders a frontend binding 0.0.0.0:80 in http mode
with two use_backend web-be rules (bare hostname and hostname:80) and a
backend block `backend web-be` with `balance roundrobin` and the single line
`server n1 10.0.0.5:8080 check`. -/
theorem C6_end_to_end :
    AddListener Initialize c6Request = .added sampleHttpStore ∧
      (Render sampleHttpStore).map Prod.fst
        = some ("frontend web\n    mode http\n    bind 0.0.0.0:80\n\n"
          ++ "    # Set up backend selection for example.com\n"
          ++ "    use_backend web-be if \x7b hdr(host) -i example.com \x7d\n"
          ++ "    use_backend web-be if \x7b hdr(host) -i example.com:80 \x7d\n\n"
          ++ "backend web-be\n    mode http\n    balance roundrobin\n\n"
          ++ "    # Backend Servers\n    server n1 10.0.0.5:8080 check\n\n") :=
  ⟨by decide, by decide⟩

/-- C8 counterexample: Render does mutate the store.  On a store whose
certificate slice was accumulated out of order, the post-render store differs
from the pre-render store (the slice was sorted in place through the listener
pointer), so the configuration state is not identical before and after. -/
theorem C8_counterexample :
    (Render unsortedCertStore).map Prod.snd ≠ some unsortedCertStore := by
  decide

/-- C8 amended: Render is read-only up to its in-place sorting.  It returns
the store with each listener's certificate slice and each backend's server
slice sorted in place — every listener's certificate list and every backend's
server sequence are preserved as multisets, all other state is unchanged —
and a second Render returns the identical string and leaves the store
fixed. -/
theorem C8_amended_render_mutation (h : HaproxyConfigurator) (s : String)
    (h' : HaproxyConfigurator) (e : Render h = some (s, h')) :
    Render h' = some (s, h') ∧
    ∀ ip port L, storeLookup h ip port = some L →
      ∃ L', storeLookup h' ip port = some L' ∧
        L'.name = L.name ∧ L'.mode = L.mode ∧ L'.useSSL = L.useSSL ∧
        L'.sslCertificates.Perm L.sslCertificates ∧
        L'.hostnameBackends.map Prod.fst = L.hostnameBackends.map Prod.fst ∧
        ∀ hostKey b, alistLookup hostKey L.hostnameBackends = some b →
          ∃ b', alistLookup hostKey L'.hostnameBackends = some b' ∧
            b'.Name = b.Name ∧ b'.BalanceMethod = b.BalanceMethod ∧
            b'.UseSSL = b.UseSSL ∧ b'.VerifySSL = b.VerifySSL ∧
            b'.Backends.Perm b.Backends := by
  refine ⟨render_stable e, ?_⟩
  obtain ⟨f, hf, hs, hh⟩ := render_some_inv e
  intro ip port L hL
  unfold storeLookup at hL
  cases hinner : alistLookup ip h.desiredConfig.listenIPs with
  | none =>
    rw [hinner] at hL
    exact absurd hL (by simp)
  | some inner =>
    rw [hinner] at hL
    replace hL : alistLookup port inner = some L := hL
    refine ⟨renderMutate L, ?_, renderMutate_name L, renderMutate_mode L,
      renderMutate_useSSL L, ?_, ?_, ?_⟩
    · rw [hh]
      unfold storeLookup
      rw [alistLookup_mapValues, hinner]
      show alistLookup port (inner.map (fun q => (q.1, renderMutate q.2)))
        = some (renderMutate L)
      rw [alistLookup_mapValues, hL]
      rfl
    · rw [renderMutate_certs]
      by_cases hu : L.useSSL
      · rw [if_pos hu]
        exact sortStrings_perm _
      · rw [if_neg hu]
    · rw [renderMutate_hostnames, keys_mapValues]
    · intro hostKey b hb
      refine ⟨sortBackendServers b, ?_, rfl, rfl, rfl, rfl, sortServers_perm _⟩
      rw [renderMutate_hostnames, alistLookup_mapValues, hb]
      rfl

/-- Witness for C8 amended: the concrete unsorted-certificate store; a second
render of the post-render store is stable. -/
theorem C8_amended_render_mutation_witness :
    Render unsortedCertStore = some (unsortedCertRendered.1, unsortedCertRendered.2) ∧
      Render unsortedCertRendered.2
        = some (unsortedCertRendered.1, unsortedCertRendered.2) :=
  ⟨by decide,
    (C8_amended_render_mutation unsortedCertStore unsortedCertRendered.1
      unsortedCertRendered.2 (by decide)).1⟩

/-- C4 counterexample: adding the identical tcp request twice does not produce
the same rendered output as adding it once — the second add takes the fatal
panic path and produces no store to render at all. -/
theorem C4_counterexample :
    AddListener Initialize tcpRequest = .added sampleTcpStore ∧
      AddListener sampleTcpStore tcpRequest
        = .panicked "This could cause unpredictability in the service router" :=
  ⟨by decide, by decide⟩

/-- C4 amended: the idempotent-merge property holds for http requests (and
vacuously for rejected requests): after a successful add of an http request,
adding the identical request again succeeds and yields the same rendered
output (the hostname overwrite is a no-op and the duplicated certificate is
collapsed by the render-time deduplication).  For a tcp request the second
add is the fatal duplicate-port conflict instead. -/
theorem C4_amended_idempotent_http (h h₁ : HaproxyConfigurator)
    (hlc : HaproxyListenerConfig)
    (hmode : hlc.Mode = "http")
    (e₁ : AddListener h hlc = .added h₁) :
    ∃ h₂, AddListener h₁ hlc = .added h₂ ∧
      (Render h₂).map Prod.fst = (Render h₁).map Prod.fst := by
  obtain ⟨hv₁, L₀, hcase, hh₁⟩ := addListener_added_inv e₁
  have htcp : hlc.Mode ≠ "tcp" := by
    rw [hmode]
    decide
  set L₁ := mergeRequestIntoListener hlc L₀ with hL₁
  have hmode₀ : L₀.mode = hlc.Mode := by
    rcases hcase with ⟨_, rfl⟩ | ⟨hsome, _⟩
    · rfl
    · exact ((validate_true_inv hv₁).2 L₀ hsome).1
  have hssl₀ : L₀.useSSL = decide (hlc.SslCertificate ≠ "") := by
    rcases hcase with ⟨_, rfl⟩ | ⟨hsome, _⟩
    · rfl
    · exact ((validate_true_inv hv₁).2 L₀ hsome).2
  have hmode₁ : L₁.mode = hlc.Mode := by
    rw [hL₁, mergeRequestIntoListener_mode, hmode₀]
  have hssl₁ : L₁.useSSL = decide (hlc.SslCertificate ≠ "") := by
    rw [hL₁, mergeRequestIntoListener_useSSL, hssl₀]
  have hlook₁ : storeLookup h₁ hlc.ListenIP hlc.ListenPort = some L₁ := by
    rw [hh₁]
    unfold storeLookup
    rw [alistLookup_alistInsert_self]
    exact alistLookup_alistInsert_self _ _ _
  have hmc : (modeCheck hlc).2 = true := by
    unfold modeCheck
    rw [if_neg (fun hc => hc.1 hmode)]
  have hv₂ : (validate hlc h₁).2 = true := by
    unfold validate
    rw [hlook₁]
    show (sslMatchCheck L₁ hlc (modeMatchCheck L₁ hlc (modeCheck hlc))).2 = true
    have h1 : modeMatchCheck L₁ hlc (modeCheck hlc) = modeCheck hlc := by
      unfold modeMatchCheck
      rw [if_neg (not_ne_iff.mpr hmode₁)]
    have h2 : sslMatchCheck L₁ hlc (modeCheck hlc) = modeCheck hlc := by
      unfold sslMatchCheck
      rw [if_neg (not_ne_iff.mpr hssl₁)]
    rw [h1, h2]
    exact hmc
  have e₂ := addListener_eq_some hv₂ hlook₁ htcp
  refine ⟨_, e₂, ?_⟩
  apply render_congr
  have hipA : alistLookup hlc.ListenIP h₁.desiredConfig.listenIPs
      = some (alistInsert hlc.ListenPort L₁
          ((alistLookup hlc.ListenIP h.desiredConfig.listenIPs).getD [])) := by
    rw [hh₁]
    exact alistLookup_alistInsert_self _ _ _
  have hinner : (alistLookup hlc.ListenIP h₁.desiredConfig.listenIPs).getD []
      = alistInsert hlc.ListenPort L₁
          ((alistLookup hlc.ListenIP h.desiredConfig.listenIPs).getD []) := by
    rw [hipA]
    rfl
  have hportA : alistLookup hlc.ListenPort
      ((alistLookup hlc.ListenIP h₁.desiredConfig.listenIPs).getD []) = some L₁ := by
    rw [hinner]
    exact alistLookup_alistInsert_self _ _ _
  have hhost : (mergeRequestIntoListener hlc L₁).hostnameBackends = L₁.hostnameBackends := by
    rw [mergeRequestIntoListener_hostnames]
    conv_lhs => rw [hL₁, mergeRequestIntoListener_hostnames]
    conv_rhs => rw [hL₁, mergeRequestIntoListener_hostnames]
    rw [alistInsert_alistInsert]
  have hLeq : listenerRenderEq (mergeRequestIntoListener hlc L₁) L₁ := by
    refine ⟨mergeRequestIntoListener_name hlc L₁, mergeRequestIntoListener_mode hlc L₁,
      mergeRequestIntoListener_useSSL hlc L₁, ?_, by rw [hhost], fun k => ?_⟩
    · rw [mergeRequestIntoListener_certs]
      by_cases hc : hlc.SslCertificate ≠ ""
      · rw [if_pos hc]
        apply crtDirectives_append_dup
        rw [hL₁, mergeRequestIntoListener_certs, if_pos hc]
        simp
      · rw [if_neg hc]
    · rw [hhost]
      exact optionRel_of_eq backendRenderEq_refl rfl
  show storeRenderEq _ h₁.desiredConfig
  have hipA2 : alistLookup hlc.ListenIP h₁.desiredConfig.listenIPs
      = some ((alistLookup hlc.ListenIP h₁.desiredConfig.listenIPs).getD []) := by
    rw [hipA]
    rfl
  exact storeRenderEq_insert hipA2 hportA hLeq

/-- Witness for C4 amended: the http certificate-carrying request added twice
on the empty store. -/
theorem C4_amended_idempotent_http_witness :
    certRequest.Mode = "http" ∧
      AddListener Initialize certRequest = .added singleCertStore ∧
      ∃ h₂, AddListener singleCertStore certRequest = .added h₂ ∧
        (Render h₂).map Prod.fst = (Render singleCertStore).map Prod.fst :=
  ⟨by decide, by decide,
    C4_amended_idempotent_http Initialize singleCertStore certRequest (by decide) (by decide)⟩
